import Mathlib

/-
  Verification of the logrotate rotating-file-sink core.

  Shallow embedding of the Go sources (logrotate.go, util.go, options.go):
  machine int64 values are modelled as Int (no overflow is reachable in the
  verified operations), the filesystem is an explicit finite map from paths
  to sizes plus tables of failing paths, and the clock / underlying file
  handle outcomes are supplied through an explicit environment record.
-/

/-! ## Decimal printing (Go fmt %d for an unsigned sequence counter) -/

/-- One decimal digit as a character, mirroring what fmt %d prints. -/
def digitChar : Nat → Char
  | 0 => '0' | 1 => '1' | 2 => '2' | 3 => '3' | 4 => '4'
  | 5 => '5' | 6 => '6' | 7 => '7' | 8 => '8' | _ => '9'

/-- Numeric value of a decimal digit character (left inverse of digitChar). -/
def digitVal : Char → Nat
  | '0' => 0 | '1' => 1 | '2' => 2 | '3' => 3 | '4' => 4
  | '5' => 5 | '6' => 6 | '7' => 7 | '8' => 8 | '9' => 9 | _ => 0

/-- Fuelled most-significant-first decimal digit list of a natural number.
The fuel argument only serves structural recursion; any fuel at least n is
enough (see natDecAux_fuel lemmas below). -/
def natDecAux : Nat → Nat → List Char
  | _, 0 => []
  | 0, _ + 1 => []
  | fuel + 1, n + 1 => natDecAux fuel ((n + 1) / 10) ++ [digitChar ((n + 1) % 10)]

/-- Decimal character list of a natural number, as fmt %d prints it. -/
def natDecData (n : Nat) : List Char :=
  if n = 0 then ['0'] else natDecAux n n

/-- Decimal string of a natural number, as fmt %d prints it. -/
def natDec (n : Nat) : String := ⟨natDecData n⟩

/-- Fold a digit list back to its numeric value. -/
def decVal (l : List Char) : Nat :=
  l.foldl (fun acc c => acc * 10 + digitVal c) 0

theorem digitVal_digitChar {d : Nat} (h : d < 10) : digitVal (digitChar d) = d := by
  interval_cases d <;> rfl

theorem decVal_append_digit (l : List Char) (c : Char) :
    decVal (l ++ [c]) = decVal l * 10 + digitVal c := by
  simp [decVal, List.foldl_append]

theorem decVal_natDecAux : ∀ fuel n, n ≤ fuel → decVal (natDecAux fuel n) = n := by
  intro fuel
  induction fuel with
  | zero =>
    intro n hn
    interval_cases n
    rfl
  | succ f ih =>
    intro n hn
    match n with
    | 0 => rfl
    | m + 1 =>
      have hdiv : (m + 1) / 10 ≤ f := by
        have h1 : (m + 1) / 10 < m + 1 := Nat.div_lt_self (Nat.succ_pos m) (by norm_num)
        omega
      have hmod : (m + 1) % 10 < 10 := Nat.mod_lt _ (by norm_num)
      calc decVal (natDecAux (f + 1) (m + 1))
          = decVal (natDecAux f ((m + 1) / 10) ++ [digitChar ((m + 1) % 10)]) := rfl
        _ = decVal (natDecAux f ((m + 1) / 10)) * 10 + digitVal (digitChar ((m + 1) % 10)) :=
            decVal_append_digit _ _
        _ = (m + 1) / 10 * 10 + (m + 1) % 10 := by
            rw [ih _ hdiv, digitVal_digitChar hmod]
        _ = m + 1 := by omega

theorem decVal_natDecData (n : Nat) : decVal (natDecData n) = n := by
  by_cases h : n = 0
  · subst h; rfl
  · simp only [natDecData, if_neg h]
    exact decVal_natDecAux n n (Nat.le_refl n)

/-- natDecData is injective, hence distinct sequence numbers give distinct
filename suffixes. -/
theorem natDecData_injective : Function.Injective natDecData := by
  intro a b h
  have := decVal_natDecData a
  rw [h, decVal_natDecData] at this
  omega

theorem natDec_injective : Function.Injective natDec := by
  intro a b h
  apply natDecData_injective
  have : (natDec a).data = (natDec b).data := by rw [h]
  simpa [natDec] using this

theorem natDecAux_ne_nil : ∀ fuel n, 1 ≤ n → n ≤ fuel → natDecAux fuel n ≠ [] := by
  intro fuel n h1 h2
  match fuel, n with
  | _, 0 => omega
  | 0, _ + 1 => omega
  | f + 1, m + 1 => simp [natDecAux]

/-- The leading decimal digit of a positive number is never the zero digit. -/
theorem natDecAux_head_ne_zero :
    ∀ fuel n, 1 ≤ n → n ≤ fuel → (natDecAux fuel n).head? ≠ some '0' := by
  intro fuel
  induction fuel with
  | zero => intro n h1 h2; omega
  | succ f ih =>
    intro n h1 h2
    match n with
    | m + 1 =>
      show (natDecAux f ((m + 1) / 10) ++ [digitChar ((m + 1) % 10)]).head? ≠ some '0'
      by_cases hq : (m + 1) / 10 = 0
      · have hlt : m + 1 < 10 := by omega
        have hm : (m + 1) % 10 = m + 1 := Nat.mod_eq_of_lt hlt
        have hnil : natDecAux f ((m + 1) / 10) = [] := by
          rw [hq]; cases f <;> rfl
        rw [hnil, List.nil_append, hm]
        simp only [List.head?_cons, ne_eq, Option.some_inj]
        have hm8 : m ≤ 8 := by omega
        interval_cases m <;> decide
      · have h1' : 1 ≤ (m + 1) / 10 := Nat.one_le_iff_ne_zero.2 hq
        have h2' : (m + 1) / 10 ≤ f := by
          have : (m + 1) / 10 < m + 1 := Nat.div_lt_self (Nat.succ_pos m) (by norm_num)
          omega
        have hne := natDecAux_ne_nil f ((m + 1) / 10) h1' h2'
        rw [List.head?_append_of_ne_nil _ hne]
        exact ih _ h1' h2'

theorem natDec_head_ne_zero {n : Nat} (h : n ≠ 0) :
    (natDec n).data.head? ≠ some '0' := by
  have h1 : 1 ≤ n := Nat.one_le_iff_ne_zero.2 h
  simp only [natDec, natDecData, if_neg h]
  exact natDecAux_head_ne_zero n n h1 (Nat.le_refl n)

/-! ## util.go : evalCurrRotationTime and parseGlobPattern -/

/-- evalCurrRotationTime from util.go: now is clock.Now().Unix(); the Go
expression (now + tzOffset) - (now + tzOffset) % interval uses the int64
remainder, which truncates toward zero (Int.tmod). -/
def evalCurrRotationTime (nowUnix tzOffset interval : Int) : Int :=
  let now := nowUnix + tzOffset
  now - Int.tmod now interval

/-- Strftime directive class, the character set of the regex
percent [%+A-Za-z] from util.go. -/
def isStrftimeSpec (c : Char) : Bool :=
  c = '%' || c = '+' || ('A' ≤ c && c ≤ 'Z') || ('a' ≤ c && c ≤ 'z')

/-- First pattern-conversion pass: leftmost non-overlapping replacement of
every percent directive by a single star, as regexp ReplaceAllString does. -/
def replaceStrftimeDirectives : List Char → List Char
  | [] => []
  | '%' :: c :: rest =>
    if isStrftimeSpec c then '*' :: replaceStrftimeDirectives rest
    else '%' :: replaceStrftimeDirectives (c :: rest)
  | c :: rest => c :: replaceStrftimeDirectives rest

/-- Second pass: each maximal run of stars collapses to one star (regex star-plus
replaced by a single star). A star followed by another star is dropped, which
keeps exactly one star per run. -/
def collapseStars : List Char → List Char
  | [] => []
  | c :: rest =>
    if c = '*' && (rest.head? == some '*') then collapseStars rest
    else c :: collapseStars rest

/-- parseGlobPattern from util.go: apply the two conversion regexps in order. -/
def parseGlobPattern (pattern : String) : String :=
  ⟨collapseStars (replaceStrftimeDirectives pattern.data)⟩

/-- C9: parseGlobPattern replaces every strftime directive and every run of
stars with a single star; the six reference equations from the spec hold. -/
theorem parseGlobPattern_reference_equations :
    parseGlobPattern "test_%Y%m%d%H%M%S" = "test_*" ∧
    parseGlobPattern "%Y%m%d" = "*" ∧
    parseGlobPattern "test_%%%Y%m%d" = "test_*" ∧
    parseGlobPattern "test_%%Y%m%d" = "test_*Y*" ∧
    parseGlobPattern "test_*%Y%m%d" = "test_*" ∧
    parseGlobPattern "test_%Y%m%d.log" = "test_*.log" := by
  refine ⟨?_, ?_, ?_, ?_, ?_, ?_⟩ <;> decide

/-! ## Data model : errors, filesystem, options, logger state, environment -/

/-- Go error values as the core observes them: a plain message, a wrapped
error (fmt.Errorf with a %w verb), or errors.Join of two errors. -/
inductive GoError where
  | msg (s : String)
  | wrap (s : String) (cause : GoError)
  | join (a b : GoError)
deriving DecidableEq, Repr

/-- Outcome of os.Stat as the core distinguishes it: success with the file
size, fs.ErrNotExist, or any other error. -/
inductive StatResult where
  | ok (size : Int)
  | notExist
  | err (e : GoError)
deriving DecidableEq, Repr

/-- Finite filesystem model: existing regular files with their sizes, paths
whose stat yields a non-ENOENT error, paths whose append-mode open fails,
and paths whose create-truncate open (or parent mkdir) fails. -/
structure FS where
  entries : List (String × Int)
  statErrs : List (String × GoError)
  openAppendFails : List String
  openNewFails : List String
deriving DecidableEq, Repr

/-- Size of an existing file, none when the path does not exist. -/
def FS.lookup (fs : FS) (p : String) : Option Int :=
  (fs.entries.find? (fun e => e.1 = p)).map (fun e => e.2)

/-- os.Stat against the filesystem model. -/
def FS.stat (fs : FS) (p : String) : StatResult :=
  match fs.statErrs.find? (fun e => e.1 = p) with
  | some e => .err e.2
  | none =>
    match fs.lookup p with
    | some sz => .ok sz
    | none => .notExist

/-- Create or truncate a file: its size becomes 0. -/
def FS.setEntry (fs : FS) (p : String) (sz : Int) : FS :=
  { fs with entries := (p, sz) :: fs.entries.filter (fun e => ¬ e.1 = p) }

/-- Append n bytes through an open handle whose path is p. When the path was
unlinked externally the bytes go to the detached inode and the visible
filesystem is unchanged. -/
def FS.append (fs : FS) (p : String) (n : Int) : FS :=
  match fs.lookup p with
  | some sz => fs.setEntry p (sz + n)
  | none => fs

/-- Options from options.go, together with the derived per-logger field
maxIntervalSeconds (int64(opts.maxInterval.Seconds()), sign preserved).
Durations are in seconds. -/
structure Options where
  maxIntervalSeconds : Int
  maxSequence : Int
  maxSize : Int
  maxAge : Int
  maxBackups : Int
  writeChSize : Int
  symlink : String
deriving DecidableEq, Repr

/-- Logger state (logrotate.go). The strftime pattern expansion
genBaseFilename is an external collaborator: with the pattern and the zone
fixed it is a pure function of the rotation time, kept here as fmtBase.
The Discards field: modelled from the spec: the per-sink discard counter of
the atomicMetrics record (metrics source file not present under src),
"a monotonically increasing count of discards in buffered mode". -/
structure Logger where
  opts : Options
  fmtBase : Int → String
  tzOffsetSeconds : Int
  fileOpen : Bool
  size : Int
  currRotationTime : Int
  currFilename : String
  currBaseFilename : String
  currSequence : Nat
  quitClosed : Bool
  writeCh : List (List Nat)
  discards : Nat
  millPending : Bool

/-- Per-call environment: the clock reading, the error produced when the
open file handle is closed, and the outcome (bytes written, error) of the
underlying handle write. -/
structure Env where
  now : Int
  closeErr : Option GoError
  writeRes : Nat × Option GoError

/-- Trace events of one synchronous write, in execution order. -/
inductive Ev where
  | statCurr (r : StatResult)
  | reopen (err : Option GoError)
  | rotateBySize (err : Option GoError)
  | rotateByInterval (err : Option GoError)
  | fileWrite (n : Nat) (err : Option GoError)
  | recover (err : Option GoError)
deriving DecidableEq, Repr

/-- Result of an internal open or rotate operation. -/
structure OpResult where
  l : Logger
  fs : FS
  err : Option GoError

/-- Result of a Write call: bytes reported, error, new state, new
filesystem, and the event trace. -/
structure WriteResult where
  n : Nat
  err : Option GoError
  l : Logger
  fs : FS
  trace : List Ev

/-! ## Core operations (logrotate.go) -/

/-- Logger.close: close the file if it is open; the file handle is dropped
and size is zeroed even when the close itself errors. -/
def Logger.close (l : Logger) (env : Env) : Logger × Option GoError :=
  if l.fileOpen then ({ l with fileOpen := false, size := 0 }, env.closeErr)
  else (l, none)

/-- Logger.incrCurrSequence: bump the sequence; when maxSequence is positive
and exceeded, clamp to maxSequence (uint conversion of the positive option)
and report the wrap. -/
def incrCurrSequence (opts : Options) (seq : Nat) : Nat × Bool :=
  if 0 < opts.maxSequence ∧ opts.maxSequence.toNat < seq + 1 then
    (opts.maxSequence.toNat, true)
  else (seq + 1, false)

/-- The genFilename closure inside evalCurrentFilename: the base name, or
base dot sequence for a positive sequence. -/
def genFilename (base : String) (seq : Nat) : String :=
  if seq = 0 then base else base ++ "." ++ natDec seq

/-- The rotation time an uninitialised logger adopts: the interval
truncation when the interval is enabled, otherwise the plain clock reading
taken once (currRotationTime still zero), otherwise the stored value. -/
def rotationTimeInit (l : Logger) (now : Int) : Int :=
  if 0 < l.opts.maxIntervalSeconds then
    evalCurrRotationTime now l.tzOffsetSeconds l.opts.maxIntervalSeconds
  else if l.currRotationTime = 0 then now
  else l.currRotationTime

/-- First part of evalCurrentFilename: refresh currRotationTime and compute
the candidate base filename (initialisation, or interval-crossing refresh). -/
def evalBaseStage (l : Logger) (now : Int) : Logger × String :=
  if l.currBaseFilename = "" then
    ({ l with currRotationTime := rotationTimeInit l now },
      l.fmtBase (rotationTimeInit l now))
  else if 0 < l.opts.maxIntervalSeconds then
    if l.currRotationTime ≠ evalCurrRotationTime now l.tzOffsetSeconds l.opts.maxIntervalSeconds then
      ({ l with currRotationTime :=
          evalCurrRotationTime now l.tzOffsetSeconds l.opts.maxIntervalSeconds },
        l.fmtBase (evalCurrRotationTime now l.tzOffsetSeconds l.opts.maxIntervalSeconds))
    else (l, l.currBaseFilename)
  else (l, l.currBaseFilename)

/-- Second part of evalCurrentFilename: a changed base resets the sequence
to zero; otherwise a forced new file or the size condition bumps it. -/
def evalSeqStage (l : Logger) (base : String) (writeLen : Int) (forceNewFile : Bool) :
    Logger × Bool :=
  if base ≠ l.currBaseFilename then
    ({ l with currBaseFilename := base, currSequence := 0 }, false)
  else if forceNewFile ∨ (0 < l.opts.maxSize ∧ l.size + writeLen > l.opts.maxSize) then
    let r := incrCurrSequence l.opts l.currSequence
    ({ l with currSequence := r.1 }, r.2)
  else (l, false)

/-- The probe loop of evalCurrentFilename under forceNewFile: step to the
first sequence whose filename stat fails, or stop at the wrap clamp. The
fuel only drives structural recursion; entries.length + 1 is always enough
(probeLoopFuel_post below). -/
def probeLoopFuel (fs : FS) (opts : Options) (base : String) :
    Nat → Nat → Bool → Nat × Bool
  | 0, seq, over => (seq, over)
  | fuel + 1, seq, over =>
    if over then (seq, over)
    else
      match fs.stat (genFilename base seq) with
      | .ok _ =>
        let r := incrCurrSequence opts seq
        probeLoopFuel fs opts base fuel r.1 r.2
      | _ => (seq, over)

/-- Base and sequence stages of evalCurrentFilename composed. -/
def evalStagePair (l : Logger) (now writeLen : Int) (force : Bool) : Logger × Bool :=
  evalSeqStage (evalBaseStage l now).1 (evalBaseStage l now).2 writeLen force

/-- The probe loop of evalCurrentFilename run on the staged state. -/
def evalProbePair (l : Logger) (fs : FS) (now writeLen : Int) (force : Bool) :
    Nat × Bool :=
  probeLoopFuel fs (evalStagePair l now writeLen force).1.opts
    (evalStagePair l now writeLen force).1.currBaseFilename
    (fs.entries.length + 1)
    (evalStagePair l now writeLen force).1.currSequence
    (evalStagePair l now writeLen force).2

/-- Logger.evalCurrentFilename: refresh rotation time and base, adjust the
sequence, and under forceNewFile probe for the first free suffix; the
current filename is updated and returned with the wrap flag. -/
def evalCurrentFilename (l : Logger) (fs : FS) (now writeLen : Int)
    (forceNewFile : Bool) : Logger × String × Bool :=
  if forceNewFile then
    ({ (evalStagePair l now writeLen forceNewFile).1 with
        currSequence := (evalProbePair l fs now writeLen forceNewFile).1,
        currFilename := genFilename
          (evalStagePair l now writeLen forceNewFile).1.currBaseFilename
          (evalProbePair l fs now writeLen forceNewFile).1 },
      genFilename (evalStagePair l now writeLen forceNewFile).1.currBaseFilename
        (evalProbePair l fs now writeLen forceNewFile).1,
      (evalProbePair l fs now writeLen forceNewFile).2)
  else
    ({ (evalStagePair l now writeLen forceNewFile).1 with
        currFilename := genFilename
          (evalStagePair l now writeLen forceNewFile).1.currBaseFilename
          (evalStagePair l now writeLen forceNewFile).1.currSequence },
      genFilename (evalStagePair l now writeLen forceNewFile).1.currBaseFilename
        (evalStagePair l now writeLen forceNewFile).1.currSequence,
      (evalStagePair l now writeLen forceNewFile).2)

/-- Logger.openNew: create parent directories and open the path with
create, write-only and truncate; on success the logger size is zero. A
mkdir or open failure is a path listed in openNewFails. -/
def openNew (l : Logger) (fs : FS) (filename : String) : OpResult :=
  if fs.openNewFails.contains filename then
    { l := l, fs := fs, err := some (.msg "cannot open new logfile") }
  else
    { l := { l with fileOpen := true, size := 0 },
      fs := fs.setEntry filename 0, err := none }

/-- Logger.rotate: close the current file, evaluate the next filename with
forceNewFile, open it anew, then trigger the mill. -/
def rotate (l : Logger) (fs : FS) (env : Env) : OpResult :=
  let c := l.close env
  match c.2 with
  | some e => { l := c.1, fs := fs, err := some e }
  | none =>
    let ev := evalCurrentFilename c.1 fs env.now 0 true
    let r := openNew ev.1 fs ev.2.1
    match r.err with
    | some e => { r with err := some e }
    | none => { r with l := { r.l with millPending := true } }

/-- Logger.openExistingOrNew: close, evaluate the candidate without forcing
a new file, then open the existing file in append mode unless it is the
wrap slot, missing, or over the size budget; the mill is triggered on every
return path (deferred call). -/
def openExistingOrNew (l : Logger) (fs : FS) (env : Env) (writeLen : Int) : OpResult :=
  let finish := fun (r : OpResult) => { r with l := { r.l with millPending := true } }
  let c := l.close env
  match c.2 with
  | some e => finish { l := c.1, fs := fs, err := some e }
  | none =>
    let ev := evalCurrentFilename c.1 fs env.now writeLen false
    if ev.2.2 then finish (openNew ev.1 fs ev.2.1)
    else
      match fs.stat ev.2.1 with
      | .notExist => finish (openNew ev.1 fs ev.2.1)
      | .err e => finish { l := ev.1, fs := fs, err := some (.wrap "get logfile info" e) }
      | .ok sz =>
        if 0 < ev.1.opts.maxSize ∧ sz + writeLen ≥ ev.1.opts.maxSize then
          finish (rotate ev.1 fs env)
        else if fs.openAppendFails.contains ev.2.1 then
          finish (openNew ev.1 fs ev.2.1)
        else
          finish { l := { ev.1 with fileOpen := true, size := sz }, fs := fs, err := none }

/-- The file-write tail of Logger.write: call the handle write, account the
bytes, and on error make exactly one open-existing-or-new recovery attempt,
joining the recovery error onto the original one when it also fails. -/
def doFileWrite (l : Logger) (fs : FS) (env : Env) (b : List Nat) (tr : List Ev) :
    WriteResult :=
  let n := env.writeRes.1
  let fs1 := fs.append l.currFilename (n : Int)
  let l1 := { l with size := l.size + (n : Int) }
  match env.writeRes.2 with
  | none => { n := n, err := none, l := l1, fs := fs1, trace := tr ++ [.fileWrite n none] }
  | some e =>
    let r := openExistingOrNew l1 fs1 env (b.length : Int)
    match r.err with
    | some e1 =>
      { n := n, err := some (.join e e1), l := r.l, fs := r.fs,
        trace := tr ++ [.fileWrite n (some e), .recover (some e1)] }
    | none =>
      { n := n, err := some e, l := r.l, fs := r.fs,
        trace := tr ++ [.fileWrite n (some e), .recover none] }

/-- The trigger section of Logger.write: size first, interval only when the
size trigger did not fire, each performing a rotate whose failure aborts
the write with zero bytes. -/
def writeTriggers (l : Logger) (fs : FS) (env : Env) (b : List Nat) (tr : List Ev) :
    WriteResult :=
  if 0 < l.opts.maxSize ∧ l.size + (b.length : Int) > l.opts.maxSize then
    let r := rotate l fs env
    match r.err with
    | some e =>
      { n := 0, err := some e, l := r.l, fs := r.fs, trace := tr ++ [.rotateBySize (some e)] }
    | none => doFileWrite r.l r.fs env b (tr ++ [.rotateBySize none])
  else if 0 < l.opts.maxIntervalSeconds ∧
      l.currRotationTime ≠ evalCurrRotationTime env.now l.tzOffsetSeconds l.opts.maxIntervalSeconds then
    let r := rotate l fs env
    match r.err with
    | some e =>
      { n := 0, err := some e, l := r.l, fs := r.fs,
        trace := tr ++ [.rotateByInterval (some e)] }
    | none => doFileWrite r.l r.fs env b (tr ++ [.rotateByInterval none])
  else doFileWrite l fs env b tr

/-- Logger.write, the synchronous write path: stat the current file, self
heal when the handle is absent or the file vanished, fail on other stat
errors, then run the rotation triggers and the handle write. -/
def write (l : Logger) (fs : FS) (env : Env) (b : List Nat) : WriteResult :=
  let st := fs.stat l.currFilename
  if ¬ l.fileOpen ∨ st = .notExist then
    let r := openExistingOrNew l fs env (b.length : Int)
    match r.err with
    | some e =>
      { n := 0, err := some e, l := r.l, fs := r.fs, trace := [.statCurr st, .reopen (some e)] }
    | none => writeTriggers r.l r.fs env b [.statCurr st, .reopen none]
  else
    match st with
    | .err e => { n := 0, err := some e, l := l, fs := fs, trace := [.statCurr st] }
    | _ => writeTriggers l fs env b [.statCurr st]

/-- Logger.Write: direct synchronous write when writeChSize is not positive;
otherwise copy the record and do a non-blocking enqueue into the bounded
channel, discarding (and counting) when the channel is full. In this
sequential model the select send succeeds exactly when the channel holds
fewer records than its capacity. -/
def Write (l : Logger) (fs : FS) (env : Env) (b : List Nat) : WriteResult :=
  if l.opts.writeChSize ≤ 0 then write l fs env b
  else
    if (l.writeCh.length : Int) < l.opts.writeChSize then
      { n := b.length, err := none, l := { l with writeCh := l.writeCh ++ [b] },
        fs := fs, trace := [] }
    else
      { n := b.length, err := none, l := { l with discards := l.discards + 1 },
        fs := fs, trace := [] }

/-- Result of Logger.Close: either a Go runtime panic, or the new state and
returned error. -/
inductive CloseResult where
  | goPanic (msg : String)
  | ok (l : Logger) (err : Option GoError)

/-- Logger.Close: close(l.quit) panics when the quit channel is already
closed; otherwise the workers are signalled, waited for, and the file is
closed. -/
def Close (l : Logger) (env : Env) : CloseResult :=
  if l.quitClosed then .goPanic "close of closed channel"
  else
    let l1 := { l with quitClosed := true }
    let c := l1.close env
    .ok c.1 c.2

/-- Logger.Rotate: take the lock and delegate to rotate. -/
def Rotate (l : Logger) (fs : FS) (env : Env) : OpResult :=
  rotate l fs env

/-- New: parseGlobPattern plus strftime.New, which is the only construction
failure; no option value is validated. patternOk abstracts whether
strftime.New accepts the pattern. -/
def New (patternOk : Bool) (opts : Options) (fmtBase : Int → String)
    (tzOffsetSeconds : Int) : Option Logger :=
  if patternOk then
    some { opts := opts, fmtBase := fmtBase, tzOffsetSeconds := tzOffsetSeconds,
           fileOpen := false, size := 0, currRotationTime := 0, currFilename := "",
           currBaseFilename := "", currSequence := 0, quitClosed := false,
           writeCh := [], discards := 0, millPending := false }
  else none

/-! ## Mill cycle (millRunOnce removal selection) -/

/-- Candidate log file as the mill sees it after glob, lstat and sorting. -/
structure MillFile where
  path : String
  modTime : Int
deriving DecidableEq, Repr

/-- The maxBackups loop of millRunOnce: a preserved set of paths grows per
file, and files pushing it beyond maxBackups are marked for removal. -/
def millBackupsRemovals (maxBackups : Int) (files : List MillFile) : List MillFile :=
  (files.foldl
    (fun (acc : List String × List MillFile) f =>
      let preserved := if acc.1.contains f.path then acc.1 else f.path :: acc.1
      if maxBackups < (preserved.length : Int) then (preserved, acc.2 ++ [f])
      else (preserved, acc.2))
    ([], [])).2

/-- Logger.millRunOnce removal and symlink selection over the sorted file
list: symlink the newest, return early when neither retention option is
positive, partition by age, then cap the survivors by maxBackups. -/
def millRunOnce (opts : Options) (now : Int) (files : List MillFile) :
    Option String × List MillFile :=
  match files with
  | [] => (none, [])
  | f0 :: _ =>
    let symTarget := if opts.symlink = "" then none else some f0.path
    if opts.maxBackups ≤ 0 ∧ opts.maxAge ≤ 0 then (symTarget, [])
    else
      let cutoff := now - opts.maxAge
      let removals :=
        if 0 < opts.maxAge then files.filter (fun f => f.modTime < cutoff) else []
      let remaining :=
        if 0 < opts.maxAge then files.filter (fun f => ¬ f.modTime < cutoff) else files
      let removals :=
        if 0 < opts.maxBackups ∧ opts.maxBackups < (remaining.length : Int) then
          removals ++ millBackupsRemovals opts.maxBackups remaining
        else removals
      (symTarget, removals)

/-! ## Concrete fixtures used by witnesses and counterexamples -/

/-- All-zero options (every feature disabled). -/
def optsZero : Options :=
  { maxIntervalSeconds := 0, maxSequence := 0, maxSize := 0, maxAge := 0,
    maxBackups := 0, writeChSize := 0, symlink := "" }

/-- A freshly constructed logger with the given options and a constant
pattern expansion. -/
def mkLogger (o : Options) : Logger :=
  { opts := o, fmtBase := fun _ => "app.log", tzOffsetSeconds := 0,
    fileOpen := false, size := 0, currRotationTime := 0, currFilename := "",
    currBaseFilename := "", currSequence := 0, quitClosed := false,
    writeCh := [], discards := 0, millPending := false }

/-- A quiet environment: epoch clock, clean close, empty successful write. -/
def envZero : Env := { now := 0, closeErr := none, writeRes := (0, none) }

/-- The empty filesystem. -/
def fsEmpty : FS :=
  { entries := [], statErrs := [], openAppendFails := [], openNewFails := [] }

/-- Whether a Close call panicked. -/
def CloseResult.panicked : CloseResult → Bool
  | .goPanic _ => true
  | .ok _ _ => false

/-- The state a non-panicking Close call leaves behind. -/
def CloseResult.state : CloseResult → Option Logger
  | .goPanic _ => none
  | .ok l _ => some l

/-! ## C1 : evalCurrRotationTime -/

/-- C1 counterexample: at the clock instant unix 0 with zone offset −3600
and a one-day interval, the local epoch is −3600 and the computed rotation
time is 0, so local − result = −3600 violates 0 ≤ local − result claimed
for every clock instant. -/
theorem evalCurrRotationTime_range_cx :
    evalCurrRotationTime 0 (-3600) 86400 = 0 ∧
    ¬ (0 ≤ ((0 : Int) + (-3600)) - evalCurrRotationTime 0 (-3600) 86400) := by
  decide

/-- C1 (amended): for every clock instant and enabled interval the rotation
time equals local − (local tmod interval) where local is the unix time plus
the zone offset and tmod is the Go int64 remainder, and the result is a
multiple of the interval; the range bound 0 ≤ local − result < interval
holds whenever the local epoch is nonnegative (Go truncated remainder makes
it fail for negative local epochs). -/
theorem evalCurrRotationTime_spec (nowUnix tzOffset interval : Int)
    (hpos : 0 < interval) :
    evalCurrRotationTime nowUnix tzOffset interval
      = (nowUnix + tzOffset) - Int.tmod (nowUnix + tzOffset) interval ∧
    interval ∣ evalCurrRotationTime nowUnix tzOffset interval ∧
    (0 ≤ nowUnix + tzOffset →
      0 ≤ (nowUnix + tzOffset) - evalCurrRotationTime nowUnix tzOffset interval ∧
      (nowUnix + tzOffset) - evalCurrRotationTime nowUnix tzOffset interval < interval) := by
  refine ⟨rfl, ?_, ?_⟩
  · have h := Int.tdiv_add_tmod (nowUnix + tzOffset) interval
    refine ⟨Int.tdiv (nowUnix + tzOffset) interval, ?_⟩
    simp only [evalCurrRotationTime]
    omega
  · intro hloc
    have heq : Int.tmod (nowUnix + tzOffset) interval
        = (nowUnix + tzOffset) % interval := Int.tmod_eq_emod hloc (le_of_lt hpos)
    have h0 : 0 ≤ (nowUnix + tzOffset) % interval := Int.emod_nonneg _ (ne_of_gt hpos)
    have h1 : (nowUnix + tzOffset) % interval < interval := Int.emod_lt_of_pos _ hpos
    simp only [evalCurrRotationTime, heq]
    omega

/-- C1 witness: the amended theorem at unix 10, offset 2, interval 5. -/
theorem evalCurrRotationTime_spec_witness :
    (0 : Int) < 5 ∧ (5 : Int) ∣ evalCurrRotationTime 10 2 5 :=
  ⟨by decide, (evalCurrRotationTime_spec 10 2 5 (by decide)).2.1⟩

/-! ## C2 : buffered Write -/

/-- C2: in buffered mode, Write copies the record, makes a non-blocking
enqueue, and returns (len b, nil) unconditionally; a full channel discards
the record and bumps the per-sink discard counter by exactly one, so the
counter never decreases. -/
theorem Write_buffered_spec (l : Logger) (fs : FS) (env : Env) (b : List Nat)
    (hch : 0 < l.opts.writeChSize) :
    (Write l fs env b).n = b.length ∧
    (Write l fs env b).err = none ∧
    (Write l fs env b).fs = fs ∧
    ((l.writeCh.length : Int) < l.opts.writeChSize →
      (Write l fs env b).l.writeCh = l.writeCh ++ [b] ∧
      (Write l fs env b).l.discards = l.discards) ∧
    (¬ (l.writeCh.length : Int) < l.opts.writeChSize →
      (Write l fs env b).l.writeCh = l.writeCh ∧
      (Write l fs env b).l.discards = l.discards + 1) ∧
    l.discards ≤ (Write l fs env b).l.discards := by
  have hns : ¬ l.opts.writeChSize ≤ 0 := by omega
  by_cases hroom : (l.writeCh.length : Int) < l.opts.writeChSize
  · simp [Write, hns, hroom]
  · simp [Write, hns, hroom]

/-- C2 witness: a full one-slot channel discards and counts. -/
theorem Write_buffered_spec_witness :
    (0 : Int) < 1 ∧
    (Write { mkLogger { optsZero with writeChSize := 1 } with writeCh := [[1]] }
        fsEmpty envZero [7]).l.discards = 1 := by
  constructor
  · decide
  · exact ((Write_buffered_spec
      { mkLogger { optsZero with writeChSize := 1 } with writeCh := [[1]] }
      fsEmpty envZero [7] (by decide)).2.2.2.2.1 (by decide)).2

/-! ## C3 : Close -/

/-- C3 counterexample: a first Close succeeds, and a second Close on the
resulting state panics (close of a closed channel) instead of returning
nil, so Close is not idempotent as claimed. -/
theorem Close_not_idempotent_cx :
    ((Close (mkLogger optsZero) envZero).state.map
      (fun l1 => (Close l1 envZero).panicked)) = some true := by
  rfl

/-- C3 (amended): Close is not idempotent. A call with the quit channel
still open signals the workers, closes the file when open and returns the
file close result; any later call finds the quit channel closed and panics
in the Go runtime. -/
theorem Close_spec (l : Logger) (env : Env) :
    (l.quitClosed = false → l.fileOpen = true →
      Close l env = .ok { l with quitClosed := true, fileOpen := false, size := 0 }
        env.closeErr) ∧
    (l.quitClosed = false → l.fileOpen = false →
      Close l env = .ok { l with quitClosed := true } none) ∧
    (l.quitClosed = true → Close l env = .goPanic "close of closed channel") := by
  refine ⟨?_, ?_, ?_⟩
  · intro hq hf; simp [Close, Logger.close, hq, hf]
  · intro hq hf; simp [Close, Logger.close, hq, hf]
  · intro hq; simp [Close, hq]

/-- C3 witness: the panic branch at a concrete already-closed logger. -/
theorem Close_spec_witness :
    ({ mkLogger optsZero with quitClosed := true } : Logger).quitClosed = true ∧
    Close { mkLogger optsZero with quitClosed := true } envZero
      = .goPanic "close of closed channel" :=
  ⟨rfl, (Close_spec { mkLogger optsZero with quitClosed := true } envZero).2.2 rfl⟩
/-! ## C4 : filename suffix invariant -/

theorem genFilename_ne_base (base : String) {seq : Nat} (h : seq ≠ 0) :
    genFilename base seq ≠ base := by
  simp only [genFilename, if_neg h]
  intro hcontra
  have hdot : ("." : String).length = 1 := rfl
  have hlen := congrArg String.length hcontra
  rw [String.length_append, String.length_append, hdot] at hlen
  omega

/-- The claimed invariant: the current filename is the base exactly when
the sequence is zero, and otherwise it is the base, a dot, and the decimal
sequence with no leading zero. -/
def FilenameInv (l : Logger) : Prop :=
  (l.currFilename = l.currBaseFilename ↔ l.currSequence = 0) ∧
  (l.currSequence ≠ 0 →
    l.currFilename = l.currBaseFilename ++ "." ++ natDec l.currSequence ∧
    (natDec l.currSequence).data.head? ≠ some '0')

instance (l : Logger) : Decidable (FilenameInv l) := by
  unfold FilenameInv; infer_instance

theorem filenameInv_congr {l l' : Logger}
    (hf : l'.currFilename = l.currFilename)
    (hb : l'.currBaseFilename = l.currBaseFilename)
    (hs : l'.currSequence = l.currSequence) :
    FilenameInv l → FilenameInv l' := by
  intro h
  unfold FilenameInv at h ⊢
  rw [hf, hb, hs]
  exact h

theorem filenameInv_of_gen {l : Logger}
    (h : l.currFilename = genFilename l.currBaseFilename l.currSequence) :
    FilenameInv l := by
  constructor
  · constructor
    · intro hfb
      by_contra hs
      exact genFilename_ne_base l.currBaseFilename hs (by rw [← h, hfb])
    · intro hs
      rw [h, genFilename, if_pos hs]
  · intro hs
    refine ⟨?_, natDec_head_ne_zero hs⟩
    rw [h, genFilename, if_neg hs]

theorem evalCurrentFilename_gen (l : Logger) (fs : FS) (now writeLen : Int)
    (force : Bool) :
    (evalCurrentFilename l fs now writeLen force).1.currFilename
      = genFilename (evalCurrentFilename l fs now writeLen force).1.currBaseFilename
          (evalCurrentFilename l fs now writeLen force).1.currSequence ∧
    (evalCurrentFilename l fs now writeLen force).2.1
      = (evalCurrentFilename l fs now writeLen force).1.currFilename := by
  cases force <;> simp [evalCurrentFilename]

theorem evalCurrentFilename_inv (l : Logger) (fs : FS) (now writeLen : Int)
    (force : Bool) :
    FilenameInv (evalCurrentFilename l fs now writeLen force).1 :=
  filenameInv_of_gen (evalCurrentFilename_gen l fs now writeLen force).1

theorem close_inv {l : Logger} (env : Env) (h : FilenameInv l) :
    FilenameInv (l.close env).1 := by
  unfold Logger.close
  split <;> exact filenameInv_congr rfl rfl rfl h

theorem openNew_inv {l : Logger} (fs : FS) (filename : String) (h : FilenameInv l) :
    FilenameInv (openNew l fs filename).l := by
  unfold openNew
  split <;> exact filenameInv_congr rfl rfl rfl h

theorem rotate_inv {l : Logger} (fs : FS) (env : Env) (h : FilenameInv l) :
    FilenameInv (rotate l fs env).l := by
  have hev := evalCurrentFilename_inv (l.close env).1 fs env.now 0 true
  have hop := openNew_inv fs (evalCurrentFilename (l.close env).1 fs env.now 0 true).2.1 hev
  simp only [rotate]
  split
  · exact close_inv env h
  · split
    · exact hop
    · exact filenameInv_congr rfl rfl rfl hop

theorem openExistingOrNew_inv {l : Logger} (fs : FS) (env : Env) (writeLen : Int)
    (h : FilenameInv l) :
    FilenameInv (openExistingOrNew l fs env writeLen).l := by
  have hcl := close_inv env h
  have hev := evalCurrentFilename_inv (l.close env).1 fs env.now writeLen false
  simp only [openExistingOrNew]
  split
  · exact filenameInv_congr rfl rfl rfl hcl
  · split
    · exact filenameInv_congr rfl rfl rfl
        (openNew_inv fs (evalCurrentFilename (l.close env).1 fs env.now writeLen false).2.1 hev)
    · split
      · exact filenameInv_congr rfl rfl rfl
          (openNew_inv fs (evalCurrentFilename (l.close env).1 fs env.now writeLen false).2.1 hev)
      · exact filenameInv_congr rfl rfl rfl hev
      · split
        · exact filenameInv_congr rfl rfl rfl (rotate_inv fs env hev)
        · split
          · exact filenameInv_congr rfl rfl rfl
              (openNew_inv fs (evalCurrentFilename (l.close env).1 fs env.now writeLen false).2.1 hev)
          · exact filenameInv_congr rfl rfl rfl hev

theorem doFileWrite_inv {l : Logger} (fs : FS) (env : Env) (b : List Nat)
    (tr : List Ev) (h : FilenameInv l) :
    FilenameInv (doFileWrite l fs env b tr).l := by
  have h1 : FilenameInv { l with size := l.size + (env.writeRes.1 : Int) } :=
    filenameInv_congr rfl rfl rfl h
  have hrec := openExistingOrNew_inv
    (l := { l with size := l.size + (env.writeRes.1 : Int) })
    (FS.append fs l.currFilename (env.writeRes.1 : Int)) env (b.length : Int) h1
  simp only [doFileWrite]
  split
  · exact h1
  · split
    · exact hrec
    · exact hrec

theorem writeTriggers_inv {l : Logger} (fs : FS) (env : Env) (b : List Nat)
    (tr : List Ev) (h : FilenameInv l) :
    FilenameInv (writeTriggers l fs env b tr).l := by
  have hr := rotate_inv fs env h
  simp only [writeTriggers]
  split
  · split
    · exact hr
    · exact doFileWrite_inv (rotate l fs env).fs env b _ hr
  · split
    · split
      · exact hr
      · exact doFileWrite_inv (rotate l fs env).fs env b _ hr
    · exact doFileWrite_inv fs env b tr h

theorem write_inv {l : Logger} (fs : FS) (env : Env) (b : List Nat)
    (h : FilenameInv l) :
    FilenameInv (write l fs env b).l := by
  have hre := openExistingOrNew_inv fs env (b.length : Int) h
  simp only [write]
  split
  · split
    · exact hre
    · exact writeTriggers_inv (openExistingOrNew l fs env (b.length : Int)).fs env b _ hre
  · split
    · exact h
    all_goals exact writeTriggers_inv fs env b _ h

/-- C4: the suffix invariant — currFilename equals currBaseFilename exactly
when currSequence is zero, and otherwise carries the dot plus decimal
sequence suffix with no leading zeros — is preserved by Write, the
synchronous write, Rotate, both open paths, and Close. -/
theorem filenameInv_preserved (l : Logger) (fs : FS) (env : Env) (b : List Nat)
    (writeLen : Int) (filename : String) (hinv : FilenameInv l) :
    FilenameInv (write l fs env b).l ∧
    FilenameInv (Write l fs env b).l ∧
    FilenameInv (Rotate l fs env).l ∧
    FilenameInv (openExistingOrNew l fs env writeLen).l ∧
    FilenameInv (openNew l fs filename).l ∧
    (∀ l1 e, Close l env = .ok l1 e → FilenameInv l1) := by
  refine ⟨write_inv fs env b hinv, ?_, rotate_inv fs env hinv,
    openExistingOrNew_inv fs env writeLen hinv, openNew_inv fs filename hinv, ?_⟩
  · simp only [Write]
    split
    · exact write_inv fs env b hinv
    · split <;> exact filenameInv_congr rfl rfl rfl hinv
  · intro l1 e hcl
    simp only [Close] at hcl
    split at hcl
    · cases hcl
    · cases hcl
      exact close_inv env (filenameInv_congr rfl rfl rfl hinv)

/-- C4 witness: a fresh logger satisfies the invariant and keeps it across
a forced rotation. -/
theorem filenameInv_preserved_witness :
    FilenameInv (mkLogger optsZero) ∧
    FilenameInv (Rotate (mkLogger optsZero) fsEmpty envZero).l :=
  ⟨by decide,
   (filenameInv_preserved (mkLogger optsZero) fsEmpty envZero [] 0 "" (by decide)).2.2.1⟩

/-! ## C5 : maxSequence clamping -/

theorem incrCurrSequence_le (opts : Options) (seq : Nat)
    (hpos : 0 < opts.maxSequence) (hseq : seq ≤ opts.maxSequence.toNat) :
    (incrCurrSequence opts seq).1 ≤ opts.maxSequence.toNat := by
  unfold incrCurrSequence
  split
  · exact Nat.le_refl _
  · next hn => omega

theorem incrCurrSequence_over (opts : Options) (seq : Nat) :
    (incrCurrSequence opts seq).2 = true →
      0 < opts.maxSequence ∧ (incrCurrSequence opts seq).1 = opts.maxSequence.toNat := by
  unfold incrCurrSequence
  split
  · next hc => exact fun _ => ⟨hc.1, rfl⟩
  · intro hfalse
    cases hfalse

theorem probeLoopFuel_over (fs : FS) (opts : Options) (base : String) :
    ∀ fuel seq, probeLoopFuel fs opts base fuel seq true = (seq, true) := by
  intro fuel seq
  cases fuel <;> simp [probeLoopFuel]

theorem probeLoopFuel_le (fs : FS) (opts : Options) (base : String)
    (hpos : 0 < opts.maxSequence) :
    ∀ fuel seq over, seq ≤ opts.maxSequence.toNat →
      (probeLoopFuel fs opts base fuel seq over).1 ≤ opts.maxSequence.toNat := by
  intro fuel
  induction fuel with
  | zero => intro seq over h; exact h
  | succ f ih =>
    intro seq over h
    show (if over then (seq, over) else _).1 ≤ _
    split
    · exact h
    · rcases hst : fs.stat (genFilename base seq) with sz | _ | e <;> simp only [hst]
      · exact ih _ _ (incrCurrSequence_le opts seq hpos h)
      · exact h
      · exact h

theorem probeLoopFuel_over_eq (fs : FS) (opts : Options) (base : String) :
    ∀ fuel seq over, (over = true → 0 < opts.maxSequence ∧ seq = opts.maxSequence.toNat) →
      (probeLoopFuel fs opts base fuel seq over).2 = true →
      0 < opts.maxSequence ∧
        (probeLoopFuel fs opts base fuel seq over).1 = opts.maxSequence.toNat := by
  intro fuel
  induction fuel with
  | zero => intro seq over h hover; exact h hover
  | succ f ih =>
    intro seq over h
    show (if over then (seq, over) else _).2 = true → _ ∧ (if over then (seq, over) else _).1 = _
    split
    · exact h
    · rcases hst : fs.stat (genFilename base seq) with sz | _ | e <;> simp only [hst]
      · exact ih _ _ (incrCurrSequence_over opts seq)
      · next hno => intro hfalse; exact absurd hfalse (by simpa using hno)
      · next hno => intro hfalse; exact absurd hfalse (by simpa using hno)

theorem evalBaseStage_opts (l : Logger) (now : Int) :
    (evalBaseStage l now).1.opts = l.opts := by
  unfold evalBaseStage
  split_ifs <;> rfl

theorem evalBaseStage_seq (l : Logger) (now : Int) :
    (evalBaseStage l now).1.currSequence = l.currSequence := by
  unfold evalBaseStage
  split_ifs <;> rfl

theorem evalBaseStage_size (l : Logger) (now : Int) :
    (evalBaseStage l now).1.size = l.size := by
  unfold evalBaseStage
  split_ifs <;> rfl

theorem evalSeqStage_opts (l : Logger) (base : String) (writeLen : Int) (force : Bool) :
    (evalSeqStage l base writeLen force).1.opts = l.opts := by
  unfold evalSeqStage
  split_ifs <;> rfl

theorem evalSeqStage_seq_le (l : Logger) (base : String) (writeLen : Int) (force : Bool)
    (hpos : 0 < l.opts.maxSequence) (hseq : l.currSequence ≤ l.opts.maxSequence.toNat) :
    (evalSeqStage l base writeLen force).1.currSequence ≤ l.opts.maxSequence.toNat := by
  unfold evalSeqStage
  split_ifs
  · exact Nat.zero_le _
  · exact incrCurrSequence_le l.opts l.currSequence hpos hseq
  · exact hseq

theorem evalSeqStage_over (l : Logger) (base : String) (writeLen : Int) (force : Bool) :
    (evalSeqStage l base writeLen force).2 = true →
      0 < l.opts.maxSequence ∧
      (evalSeqStage l base writeLen force).1.currSequence = l.opts.maxSequence.toNat := by
  unfold evalSeqStage
  split_ifs
  · intro hfalse; cases hfalse
  · intro hover
    exact incrCurrSequence_over l.opts l.currSequence hover
  · intro hfalse; cases hfalse

theorem evalStagePair_opts (l : Logger) (now writeLen : Int) (force : Bool) :
    (evalStagePair l now writeLen force).1.opts = l.opts :=
  (evalSeqStage_opts _ _ _ _).trans (evalBaseStage_opts l now)

theorem evalStagePair_seq_le (l : Logger) (now writeLen : Int) (force : Bool)
    (hpos : 0 < l.opts.maxSequence) (hseq : l.currSequence ≤ l.opts.maxSequence.toNat) :
    (evalStagePair l now writeLen force).1.currSequence ≤ l.opts.maxSequence.toNat := by
  unfold evalStagePair
  have h := evalSeqStage_seq_le (evalBaseStage l now).1 (evalBaseStage l now).2 writeLen force
    (by rw [evalBaseStage_opts]; exact hpos)
    (by rw [evalBaseStage_opts, evalBaseStage_seq]; exact hseq)
  rwa [evalBaseStage_opts] at h

theorem evalStagePair_over (l : Logger) (now writeLen : Int) (force : Bool) :
    (evalStagePair l now writeLen force).2 = true →
      0 < l.opts.maxSequence ∧
      (evalStagePair l now writeLen force).1.currSequence = l.opts.maxSequence.toNat := by
  unfold evalStagePair
  intro h
  have h2 := evalSeqStage_over (evalBaseStage l now).1 (evalBaseStage l now).2 writeLen force h
  rwa [evalBaseStage_opts] at h2

theorem evalProbePair_le (l : Logger) (fs : FS) (now writeLen : Int) (force : Bool)
    (hpos : 0 < l.opts.maxSequence) (hseq : l.currSequence ≤ l.opts.maxSequence.toNat) :
    (evalProbePair l fs now writeLen force).1 ≤ l.opts.maxSequence.toNat := by
  unfold evalProbePair
  rw [evalStagePair_opts l now writeLen force]
  exact probeLoopFuel_le fs l.opts
    (evalStagePair l now writeLen force).1.currBaseFilename hpos
    (fs.entries.length + 1)
    (evalStagePair l now writeLen force).1.currSequence
    (evalStagePair l now writeLen force).2
    (evalStagePair_seq_le l now writeLen force hpos hseq)

theorem evalProbePair_over (l : Logger) (fs : FS) (now writeLen : Int) (force : Bool) :
    (evalProbePair l fs now writeLen force).2 = true →
      0 < l.opts.maxSequence ∧
      (evalProbePair l fs now writeLen force).1 = l.opts.maxSequence.toNat := by
  unfold evalProbePair
  rw [evalStagePair_opts l now writeLen force]
  intro h
  exact probeLoopFuel_over_eq fs l.opts
    (evalStagePair l now writeLen force).1.currBaseFilename
    (fs.entries.length + 1) (evalStagePair l now writeLen force).1.currSequence
    (evalStagePair l now writeLen force).2
    (evalStagePair_over l now writeLen force) h

theorem evalCurrentFilename_opts (l : Logger) (fs : FS) (now writeLen : Int)
    (force : Bool) :
    (evalCurrentFilename l fs now writeLen force).1.opts = l.opts := by
  unfold evalCurrentFilename
  split <;> exact evalStagePair_opts l now writeLen force

theorem evalCurrentFilename_seq_le (l : Logger) (fs : FS) (now writeLen : Int)
    (force : Bool) (hpos : 0 < l.opts.maxSequence)
    (hseq : l.currSequence ≤ l.opts.maxSequence.toNat) :
    (evalCurrentFilename l fs now writeLen force).1.currSequence
      ≤ l.opts.maxSequence.toNat := by
  unfold evalCurrentFilename
  split
  · exact evalProbePair_le l fs now writeLen force hpos hseq
  · exact evalStagePair_seq_le l now writeLen force hpos hseq

theorem evalCurrentFilename_over (l : Logger) (fs : FS) (now writeLen : Int)
    (force : Bool) (hover : (evalCurrentFilename l fs now writeLen force).2.2 = true) :
    0 < l.opts.maxSequence ∧
    (evalCurrentFilename l fs now writeLen force).1.currSequence
      = l.opts.maxSequence.toNat ∧
    (evalCurrentFilename l fs now writeLen force).2.1
      = genFilename (evalCurrentFilename l fs now writeLen force).1.currBaseFilename
          l.opts.maxSequence.toNat := by
  revert hover
  unfold evalCurrentFilename
  split
  · intro hover
    have h := evalProbePair_over l fs now writeLen force hover
    exact ⟨h.1, h.2, by rw [h.2]⟩
  · intro hover
    have h := evalStagePair_over l now writeLen force hover
    exact ⟨h.1, h.2, by rw [h.2]⟩

/-- Combined per-logger property for C5: the options are untouched and the
sequence respects a positive maxSequence. -/
def OptsSeq (o : Options) (l : Logger) : Prop :=
  l.opts = o ∧ (0 < o.maxSequence → l.currSequence ≤ o.maxSequence.toNat)

theorem optsSeq_congr {o : Options} {l l' : Logger}
    (ho : l'.opts = l.opts) (hs : l'.currSequence = l.currSequence) :
    OptsSeq o l → OptsSeq o l' :=
  fun h => ⟨ho.trans h.1, fun hp => hs ▸ h.2 hp⟩

theorem evalCurrentFilename_optsSeq {o : Options} (l : Logger) (fs : FS)
    (now writeLen : Int) (force : Bool) (h : OptsSeq o l) :
    OptsSeq o (evalCurrentFilename l fs now writeLen force).1 := by
  obtain ⟨ho, hs⟩ := h
  subst ho
  exact ⟨evalCurrentFilename_opts l fs now writeLen force,
    fun hp => evalCurrentFilename_seq_le l fs now writeLen force hp (hs hp)⟩

theorem close_optsSeq {o : Options} {l : Logger} (env : Env) (h : OptsSeq o l) :
    OptsSeq o (l.close env).1 := by
  unfold Logger.close
  split
  · exact optsSeq_congr rfl rfl h
  · exact h

theorem openNew_optsSeq {o : Options} {l : Logger} (fs : FS) (filename : String)
    (h : OptsSeq o l) :
    OptsSeq o (openNew l fs filename).l := by
  unfold openNew
  split <;> exact optsSeq_congr rfl rfl h

theorem rotate_optsSeq {o : Options} {l : Logger} (fs : FS) (env : Env)
    (h : OptsSeq o l) :
    OptsSeq o (rotate l fs env).l := by
  have hev := evalCurrentFilename_optsSeq (l.close env).1 fs env.now 0 true
    (close_optsSeq env h)
  have hop := openNew_optsSeq fs (evalCurrentFilename (l.close env).1 fs env.now 0 true).2.1 hev
  simp only [rotate]
  split
  · exact close_optsSeq env h
  · split
    · exact hop
    · exact optsSeq_congr rfl rfl hop

theorem openExistingOrNew_optsSeq {o : Options} {l : Logger} (fs : FS) (env : Env)
    (writeLen : Int) (h : OptsSeq o l) :
    OptsSeq o (openExistingOrNew l fs env writeLen).l := by
  have hcl := close_optsSeq env h
  have hev := evalCurrentFilename_optsSeq (l.close env).1 fs env.now writeLen false hcl
  simp only [openExistingOrNew]
  split
  · exact optsSeq_congr rfl rfl hcl
  · split
    · exact optsSeq_congr rfl rfl
        (openNew_optsSeq fs (evalCurrentFilename (l.close env).1 fs env.now writeLen false).2.1 hev)
    · split
      · exact optsSeq_congr rfl rfl
          (openNew_optsSeq fs (evalCurrentFilename (l.close env).1 fs env.now writeLen false).2.1 hev)
      · exact optsSeq_congr rfl rfl hev
      · split
        · exact optsSeq_congr rfl rfl (rotate_optsSeq fs env hev)
        · split
          · exact optsSeq_congr rfl rfl
              (openNew_optsSeq fs (evalCurrentFilename (l.close env).1 fs env.now writeLen false).2.1 hev)
          · exact optsSeq_congr rfl rfl hev

theorem doFileWrite_optsSeq {o : Options} {l : Logger} (fs : FS) (env : Env)
    (b : List Nat) (tr : List Ev) (h : OptsSeq o l) :
    OptsSeq o (doFileWrite l fs env b tr).l := by
  have h1 : OptsSeq o { l with size := l.size + (env.writeRes.1 : Int) } :=
    optsSeq_congr rfl rfl h
  have hrec := openExistingOrNew_optsSeq
    (l := { l with size := l.size + (env.writeRes.1 : Int) })
    (FS.append fs l.currFilename (env.writeRes.1 : Int)) env (b.length : Int) h1
  simp only [doFileWrite]
  split
  · exact h1
  · split
    · exact hrec
    · exact hrec

theorem writeTriggers_optsSeq {o : Options} {l : Logger} (fs : FS) (env : Env)
    (b : List Nat) (tr : List Ev) (h : OptsSeq o l) :
    OptsSeq o (writeTriggers l fs env b tr).l := by
  have hr := rotate_optsSeq fs env h
  simp only [writeTriggers]
  split
  · split
    · exact hr
    · exact doFileWrite_optsSeq (rotate l fs env).fs env b _ hr
  · split
    · split
      · exact hr
      · exact doFileWrite_optsSeq (rotate l fs env).fs env b _ hr
    · exact doFileWrite_optsSeq fs env b tr h

theorem write_optsSeq {o : Options} {l : Logger} (fs : FS) (env : Env)
    (b : List Nat) (h : OptsSeq o l) :
    OptsSeq o (write l fs env b).l := by
  have hre := openExistingOrNew_optsSeq fs env (b.length : Int) h
  simp only [write]
  split
  · split
    · exact hre
    · exact writeTriggers_optsSeq (openExistingOrNew l fs env (b.length : Int)).fs env b _ hre
  · split
    · exact h
    all_goals exact writeTriggers_optsSeq fs env b _ h

/-- C5: with a positive maxSequence the sequence counter never exceeds it
across the write, rotate and open operations; a single increment beyond the
cap clamps to the cap and reports the wrap; the wrap filename is the base
with the maxSequence suffix and is opened truncating (openNew zeroes both
the logger size and the on-disk size); and a changed base filename resets
the sequence to zero before any probing. -/
theorem maxSequence_clamp_spec (l : Logger) (fs : FS) (env : Env) (b : List Nat)
    (writeLen : Int) (seq : Nat) (base fn : String) (force : Bool)
    (hpos : 0 < l.opts.maxSequence)
    (hseq : l.currSequence ≤ l.opts.maxSequence.toNat) :
    (write l fs env b).l.currSequence ≤ l.opts.maxSequence.toNat ∧
    (Rotate l fs env).l.currSequence ≤ l.opts.maxSequence.toNat ∧
    (openExistingOrNew l fs env writeLen).l.currSequence ≤ l.opts.maxSequence.toNat ∧
    (l.opts.maxSequence.toNat < seq + 1 →
      incrCurrSequence l.opts seq = (l.opts.maxSequence.toNat, true)) ∧
    (seq + 1 ≤ l.opts.maxSequence.toNat →
      incrCurrSequence l.opts seq = (seq + 1, false)) ∧
    ((evalCurrentFilename l fs env.now writeLen force).2.2 = true →
      (evalCurrentFilename l fs env.now writeLen force).2.1
        = (evalCurrentFilename l fs env.now writeLen force).1.currBaseFilename
            ++ "." ++ natDec l.opts.maxSequence.toNat) ∧
    (fs.openNewFails.contains fn = false →
      (openNew l fs fn).l.size = 0 ∧ (openNew l fs fn).fs.lookup fn = some 0) ∧
    (base ≠ l.currBaseFilename →
      evalSeqStage l base writeLen force
        = ({ l with currBaseFilename := base, currSequence := 0 }, false)) := by
  have hseqinv : OptsSeq l.opts l := ⟨rfl, fun _ => hseq⟩
  refine ⟨(write_optsSeq fs env b hseqinv).2 hpos,
    (rotate_optsSeq fs env hseqinv).2 hpos,
    (openExistingOrNew_optsSeq fs env writeLen hseqinv).2 hpos, ?_, ?_, ?_, ?_, ?_⟩
  · intro hover
    unfold incrCurrSequence
    rw [if_pos ⟨hpos, hover⟩]
  · intro hle
    unfold incrCurrSequence
    rw [if_neg]
    omega
  · intro hover
    have h := evalCurrentFilename_over l fs env.now writeLen force hover
    have hne : l.opts.maxSequence.toNat ≠ 0 := by omega
    rw [h.2.2, genFilename, if_neg hne]
  · intro hfail
    constructor
    · unfold openNew
      rw [hfail]
      rfl
    · unfold openNew
      rw [hfail]
      show ((fs.setEntry fn 0).lookup fn) = some 0
      unfold FS.setEntry FS.lookup
      simp
  · intro hbase
    unfold evalSeqStage
    rw [if_pos hbase]

/-- C5 witness: clamping a single increment at the cap, with maxSequence 3
and the counter already at 3. -/
theorem maxSequence_clamp_spec_witness :
    (0 : Int) < 3 ∧ (3 : Nat) ≤ (3 : Int).toNat ∧
    incrCurrSequence { optsZero with maxSequence := 3 } 3 = ((3 : Int).toNat, true) := by
  refine ⟨by decide, by decide, ?_⟩
  exact (maxSequence_clamp_spec
    { mkLogger { optsZero with maxSequence := 3 } with currSequence := 3 }
    fsEmpty envZero [] 0 3 "" "" false (by decide) (by decide)).2.2.2.1 (by decide)

/-! ## C7 : rotation postcondition -/

theorem strData_append (s t : String) : (s ++ t).data = s.data ++ t.data := rfl

theorem genFilename_injective (base : String) :
    Function.Injective (genFilename base) := by
  intro a b h
  by_cases ha : a = 0 <;> by_cases hb : b = 0
  · omega
  · exfalso
    apply genFilename_ne_base base hb
    rw [← h, genFilename, if_pos ha]
  · exfalso
    apply genFilename_ne_base base ha
    rw [h, genFilename, if_pos hb]
  · simp only [genFilename, if_neg ha, if_neg hb] at h
    have hd := congrArg String.data h
    simp only [strData_append] at hd
    have h2 := List.append_cancel_left hd
    exact natDecData_injective h2

/-- Whether stat succeeds on a path (the probe loop continues exactly on
stat success). -/
def statOkB (fs : FS) (p : String) : Bool :=
  match fs.stat p with
  | .ok _ => true
  | _ => false

theorem statOkB_mem {fs : FS} {p : String} (h : statOkB fs p = true) :
    p ∈ fs.entries.map Prod.fst := by
  unfold statOkB FS.stat at h
  rcases hf : fs.statErrs.find? (fun e => e.1 = p) with _ | e
  · rw [hf] at h
    rcases hl : fs.lookup p with _ | sz
    · rw [hl] at h; cases h
    · unfold FS.lookup at hl
      rcases hfind : fs.entries.find? (fun e => e.1 = p) with _ | ent
      · rw [hfind] at hl; cases hl
      · have hmem := List.mem_of_find?_eq_some hfind
        have hp : ent.1 = p := by
          have := List.find?_some hfind
          simpa using this
        exact hp ▸ List.mem_map_of_mem Prod.fst hmem
  · rw [hf] at h; cases h

/-- Pigeonhole over the finite filesystem: among entries.length + 1
consecutive candidate filenames some stat must fail, because the candidate
names are pairwise distinct while the filesystem is finite. -/
theorem exists_probe_gap (fs : FS) (base : String) (seq : Nat) :
    ∃ m, m ≤ fs.entries.length ∧ statOkB fs (genFilename base (seq + m)) = false := by
  by_contra hcon
  push_neg at hcon
  have hall : ∀ m, m ≤ fs.entries.length →
      statOkB fs (genFilename base (seq + m)) = true := by
    intro m hm
    have hne := hcon m hm
    cases hst : statOkB fs (genFilename base (seq + m))
    · exact absurd hst hne
    · rfl
  have hinj : ∀ x ∈ Finset.range (fs.entries.length + 1),
      ∀ y ∈ Finset.range (fs.entries.length + 1),
      genFilename base (seq + x) = genFilename base (seq + y) → x = y := by
    intro x _ y _ hxy
    have := genFilename_injective base hxy
    omega
  have hcard : (Finset.range (fs.entries.length + 1)).card
      ≤ (fs.entries.map Prod.fst).toFinset.card := by
    apply Finset.card_le_card_of_injOn (fun m => genFilename base (seq + m))
    · intro m hm
      rw [List.mem_toFinset]
      exact statOkB_mem (hall m (Nat.lt_succ_iff.mp (Finset.mem_range.mp hm)))
    · exact hinj
  have h1 : (Finset.range (fs.entries.length + 1)).card = fs.entries.length + 1 :=
    Finset.card_range _
  have h2 : (fs.entries.map Prod.fst).toFinset.card ≤ (fs.entries.map Prod.fst).length :=
    List.toFinset_card_le _
  rw [List.length_map] at h2
  omega

theorem incrCurrSequence_not_over (opts : Options) (seq : Nat)
    (h : (incrCurrSequence opts seq).2 = false) :
    (incrCurrSequence opts seq).1 = seq + 1 := by
  unfold incrCurrSequence at h ⊢
  split at h
  · cases h
  · next hnc => rw [if_neg hnc]

theorem probeLoopFuel_post (fs : FS) (opts : Options) (base : String) :
    ∀ fuel seq over,
      (∃ m, m < fuel ∧ statOkB fs (genFilename base (seq + m)) = false) →
      (probeLoopFuel fs opts base fuel seq over).2 = true ∨
      statOkB fs (genFilename base (probeLoopFuel fs opts base fuel seq over).1) = false := by
  intro fuel
  induction fuel with
  | zero =>
    intro seq over hgap
    obtain ⟨m, hm, _⟩ := hgap
    omega
  | succ f ih =>
    intro seq over hgap
    by_cases hov : over = true
    · subst hov
      rw [probeLoopFuel_over]
      exact Or.inl rfl
    · have hov' : over = false := by
        cases over
        · rfl
        · exact absurd rfl hov
      subst hov'
      rcases hst : fs.stat (genFilename base seq) with sz | _ | e
      · cases hover2 : (incrCurrSequence opts seq).2 with
        | false =>
          have hseq1 := incrCurrSequence_not_over opts seq hover2
          obtain ⟨m, hmf, hmgap⟩ := hgap
          have hm0 : m ≠ 0 := by
            intro h0
            subst h0
            rw [Nat.add_zero] at hmgap
            unfold statOkB at hmgap
            rw [hst] at hmgap
            cases hmgap
          have hgap' : ∃ m', m' < f ∧ statOkB fs (genFilename base (seq + 1 + m')) = false :=
            ⟨m - 1, by omega, by rw [show seq + 1 + (m - 1) = seq + m by omega]; exact hmgap⟩
          simp only [probeLoopFuel, hst]
          rw [if_neg (by simp)]
          rw [hseq1, hover2]
          exact ih (seq + 1) false hgap'
        | true =>
          simp only [probeLoopFuel, hst]
          rw [if_neg (by simp)]
          rw [hover2, probeLoopFuel_over]
          exact Or.inl rfl
      · right
        simp only [probeLoopFuel, hst]
        rw [if_neg (by simp)]
        unfold statOkB
        rw [hst]
      · right
        simp only [probeLoopFuel, hst]
        rw [if_neg (by simp)]
        unfold statOkB
        rw [hst]

theorem evalCurrentFilename_force_post (l : Logger) (fs : FS) (now writeLen : Int) :
    (evalCurrentFilename l fs now writeLen true).2.2 = true ∨
    statOkB fs (evalCurrentFilename l fs now writeLen true).2.1 = false := by
  obtain ⟨m, hm, hgapf⟩ := exists_probe_gap fs
    (evalStagePair l now writeLen true).1.currBaseFilename
    (evalStagePair l now writeLen true).1.currSequence
  exact probeLoopFuel_post fs (evalStagePair l now writeLen true).1.opts
    (evalStagePair l now writeLen true).1.currBaseFilename
    (fs.entries.length + 1) (evalStagePair l now writeLen true).1.currSequence
    (evalStagePair l now writeLen true).2 ⟨m, by omega, hgapf⟩

theorem statOkB_false_lookup {fs : FS} (hclean : fs.statErrs = []) {p : String}
    (h : statOkB fs p = false) : fs.lookup p = none := by
  unfold statOkB FS.stat at h
  rw [hclean] at h
  rcases hl : fs.lookup p with _ | sz
  · rfl
  · rw [hl] at h
    simp at h

theorem close_opts (l : Logger) (env : Env) : (l.close env).1.opts = l.opts := by
  unfold Logger.close
  split <;> rfl

theorem openNew_ok {l : Logger} {fs : FS} {filename : String}
    (h : fs.openNewFails.contains filename = false) :
    openNew l fs filename
      = { l := { l with fileOpen := true, size := 0 },
          fs := fs.setEntry filename 0, err := none } := by
  have h' : ¬ (fs.openNewFails.contains filename = true) := by
    rw [h]
    exact Bool.false_ne_true
  unfold openNew
  rw [if_neg h']

theorem openNew_fail {l : Logger} {fs : FS} {filename : String}
    (h : fs.openNewFails.contains filename = true) :
    openNew l fs filename
      = { l := l, fs := fs, err := some (.msg "cannot open new logfile") } := by
  unfold openNew
  rw [if_pos h]

theorem FS.lookup_setEntry (fs : FS) (p : String) (sz : Int) :
    (fs.setEntry p sz).lookup p = some sz := by
  unfold FS.setEntry FS.lookup
  simp

/-- C7: a successful rotation leaves size zero and writes into a path that
either did not exist on the (stat-error-free) filesystem before the
rotation, or is the wrap slot base.maxSequence; either way the opened path
is truncated (its on-disk size is zero afterwards). -/
theorem rotate_success_spec (l : Logger) (fs : FS) (env : Env)
    (hclean : fs.statErrs = [])
    (hsucc : (rotate l fs env).err = none) :
    (rotate l fs env).l.size = 0 ∧
    (fs.lookup (rotate l fs env).l.currFilename = none ∨
      (0 < l.opts.maxSequence ∧
       (rotate l fs env).l.currFilename
         = (rotate l fs env).l.currBaseFilename ++ "." ++ natDec l.opts.maxSequence.toNat)) ∧
    (rotate l fs env).fs.lookup (rotate l fs env).l.currFilename = some 0 := by
  revert hsucc
  simp only [rotate]
  rcases hc : (l.close env).2 with _ | e
  · cases hn : fs.openNewFails.contains
        (evalCurrentFilename (l.close env).1 fs env.now 0 true).2.1 with
    | true =>
      rw [openNew_fail hn]
      intro hsucc
      cases hsucc
    | false =>
      rw [openNew_ok hn]
      intro _
      have hfn : (evalCurrentFilename (l.close env).1 fs env.now 0 true).2.1
          = (evalCurrentFilename (l.close env).1 fs env.now 0 true).1.currFilename :=
        (evalCurrentFilename_gen (l.close env).1 fs env.now 0 true).2
      refine ⟨rfl, ?_, ?_⟩
      · rcases evalCurrentFilename_force_post (l.close env).1 fs env.now 0 with hover | hgap
        · right
          have hov := evalCurrentFilename_over (l.close env).1 fs env.now 0 true hover
          rw [close_opts] at hov
          refine ⟨hov.1, ?_⟩
          show (evalCurrentFilename (l.close env).1 fs env.now 0 true).1.currFilename
            = (evalCurrentFilename (l.close env).1 fs env.now 0 true).1.currBaseFilename
              ++ "." ++ natDec l.opts.maxSequence.toNat
          rw [← hfn, hov.2.2, genFilename, if_neg (by omega)]
        · left
          show fs.lookup (evalCurrentFilename (l.close env).1 fs env.now 0 true).1.currFilename
            = none
          rw [← hfn]
          exact statOkB_false_lookup hclean hgap
      · show (fs.setEntry (evalCurrentFilename (l.close env).1 fs env.now 0 true).2.1 0).lookup
            (evalCurrentFilename (l.close env).1 fs env.now 0 true).1.currFilename = some 0
        rw [← hfn]
        exact FS.lookup_setEntry fs _ 0
  · intro hsucc
    cases hsucc

/-- C7 witness: rotating a fresh logger on the empty filesystem succeeds,
zeroes the size, and creates a previously non-existing path. -/
theorem rotate_success_spec_witness :
    (fsEmpty.statErrs = []) ∧
    ((rotate (mkLogger optsZero) fsEmpty envZero).err = none) ∧
    (rotate (mkLogger optsZero) fsEmpty envZero).l.size = 0 := by
  refine ⟨rfl, by decide, ?_⟩
  exact (rotate_success_spec (mkLogger optsZero) fsEmpty envZero rfl (by decide)).1

/-! ## C6 : write decision order -/

theorem doFileWrite_trace (l : Logger) (fs : FS) (env : Env) (b : List Nat)
    (tr : List Ev) :
    ∃ rest, (doFileWrite l fs env b tr).trace = tr ++ rest ∧
      (∀ e0, Ev.rotateBySize e0 ∉ rest) ∧
      (∀ e0, Ev.rotateByInterval e0 ∉ rest) ∧
      (∀ r, Ev.statCurr r ∉ rest) ∧
      (∀ e0, Ev.reopen e0 ∉ rest) := by
  rcases hw : env.writeRes.2 with _ | e
  · simp only [doFileWrite, hw]
    exact ⟨[.fileWrite env.writeRes.1 none], rfl, by simp, by simp, by simp, by simp⟩
  · simp only [doFileWrite, hw]
    rcases he : (openExistingOrNew { l with size := l.size + (env.writeRes.1 : Int) }
        (FS.append fs l.currFilename (env.writeRes.1 : Int)) env (b.length : Int)).err
      with _ | e1
    · exact ⟨[.fileWrite env.writeRes.1 (some e), .recover none], rfl,
        by simp, by simp, by simp, by simp⟩
    · exact ⟨[.fileWrite env.writeRes.1 (some e), .recover (some e1)], rfl,
        by simp, by simp, by simp, by simp⟩

theorem writeTriggers_trace (l : Logger) (fs : FS) (env : Env) (b : List Nat)
    (tr : List Ev) :
    ∃ rest, (writeTriggers l fs env b tr).trace = tr ++ rest ∧
      ((∃ e0, Ev.rotateBySize e0 ∈ rest) ↔
        (0 < l.opts.maxSize ∧ l.size + (b.length : Int) > l.opts.maxSize)) ∧
      ((∃ e0, Ev.rotateByInterval e0 ∈ rest) ↔
        (¬ (0 < l.opts.maxSize ∧ l.size + (b.length : Int) > l.opts.maxSize) ∧
          0 < l.opts.maxIntervalSeconds ∧
          l.currRotationTime
            ≠ evalCurrRotationTime env.now l.tzOffsetSeconds l.opts.maxIntervalSeconds)) ∧
      (∀ r, Ev.statCurr r ∉ rest) ∧
      (∀ e0, Ev.reopen e0 ∉ rest) := by
  by_cases hsz : 0 < l.opts.maxSize ∧ l.size + (b.length : Int) > l.opts.maxSize
  · simp only [writeTriggers, if_pos hsz]
    rcases he : (rotate l fs env).err with _ | e
    · obtain ⟨rest, htr, hs, hi, hst, hre⟩ :=
        doFileWrite_trace (rotate l fs env).l (rotate l fs env).fs env b
          (tr ++ [.rotateBySize none])
      refine ⟨[.rotateBySize none] ++ rest, by rw [htr, List.append_assoc], ?_, ?_, ?_, ?_⟩
      · simp only [List.mem_append, List.mem_singleton]
        exact ⟨fun _ => hsz, fun _ => ⟨none, Or.inl rfl⟩⟩
      · constructor
        · rintro ⟨e0, hmem⟩
          rcases List.mem_append.mp hmem with hmem | hmem
          · simp at hmem
          · exact absurd hmem (hi e0)
        · rintro ⟨hns, _⟩
          exact absurd hsz hns
      · intro r hmem
        rcases List.mem_append.mp hmem with hmem | hmem
        · simp at hmem
        · exact hst r hmem
      · intro e0 hmem
        rcases List.mem_append.mp hmem with hmem | hmem
        · simp at hmem
        · exact hre e0 hmem
    · refine ⟨[.rotateBySize (some e)], rfl, ?_, ?_, by simp, by simp⟩
      · simp only [List.mem_singleton]
        exact ⟨fun _ => hsz, fun _ => ⟨some e, rfl⟩⟩
      · constructor
        · rintro ⟨e0, hmem⟩
          simp at hmem
        · rintro ⟨hns, _⟩
          exact absurd hsz hns
  · simp only [writeTriggers, if_neg hsz]
    by_cases hint : 0 < l.opts.maxIntervalSeconds ∧
        l.currRotationTime
          ≠ evalCurrRotationTime env.now l.tzOffsetSeconds l.opts.maxIntervalSeconds
    · simp only [if_pos hint]
      rcases he : (rotate l fs env).err with _ | e
      · obtain ⟨rest, htr, hs, hi, hst, hre⟩ :=
          doFileWrite_trace (rotate l fs env).l (rotate l fs env).fs env b
            (tr ++ [.rotateByInterval none])
        refine ⟨[.rotateByInterval none] ++ rest, by rw [htr, List.append_assoc],
          ?_, ?_, ?_, ?_⟩
        · constructor
          · rintro ⟨e0, hmem⟩
            rcases List.mem_append.mp hmem with hmem | hmem
            · simp at hmem
            · exact absurd hmem (hs e0)
          · intro h
            exact absurd h hsz
        · simp only [List.mem_append, List.mem_singleton]
          exact ⟨fun _ => ⟨hsz, hint⟩, fun _ => ⟨none, Or.inl rfl⟩⟩
        · intro r hmem
          rcases List.mem_append.mp hmem with hmem | hmem
          · simp at hmem
          · exact hst r hmem
        · intro e0 hmem
          rcases List.mem_append.mp hmem with hmem | hmem
          · simp at hmem
          · exact hre e0 hmem
      · refine ⟨[.rotateByInterval (some e)], rfl, ?_, ?_, by simp, by simp⟩
        · constructor
          · rintro ⟨e0, hmem⟩
            simp at hmem
          · intro h
            exact absurd h hsz
        · simp only [List.mem_singleton]
          exact ⟨fun _ => ⟨hsz, hint⟩, fun _ => ⟨some e, rfl⟩⟩
    · simp only [if_neg hint]
      obtain ⟨rest, htr, hs, hi, hst, hre⟩ := doFileWrite_trace l fs env b tr
      refine ⟨rest, htr, ?_, ?_, hst, hre⟩
      · constructor
        · rintro ⟨e0, hmem⟩
          exact absurd hmem (hs e0)
        · intro h
          exact absurd h hsz
      · constructor
        · rintro ⟨e0, hmem⟩
          exact absurd hmem (hi e0)
        · rintro ⟨_, h⟩
          exact absurd h hint

/-- A filesystem whose stat of the empty path fails with a non-ENOENT
error, for the C6 witness. -/
def fsStatErr : FS :=
  { entries := [], statErrs := [("", .msg "boom")],
    openAppendFails := [], openNewFails := [] }

/-- C6: the synchronous write decides in this exact order: the stat of the
current filename comes first; a missing handle or a not-found stat runs
open-existing-or-new second (its failure aborts with zero bytes); a
different stat error with a live handle fails the write with zero bytes and
no state change; the size trigger and the interval trigger each cause at
most one rotation, never both, and the interval trigger fires only when the
size trigger did not. -/
theorem write_order_spec (l : Logger) (fs : FS) (env : Env) (b : List Nat) :
    (write l fs env b).trace.head? = some (.statCurr (fs.stat l.currFilename)) ∧
    (∀ e, l.fileOpen = true → fs.stat l.currFilename = .err e →
      write l fs env b =
        { n := 0, err := some e, l := l, fs := fs,
          trace := [.statCurr (.err e)] }) ∧
    ((¬ (l.fileOpen = true) ∨ fs.stat l.currFilename = .notExist) →
      (write l fs env b).trace.take 2
        = [.statCurr (fs.stat l.currFilename),
            .reopen (openExistingOrNew l fs env (b.length : Int)).err] ∧
      (∀ e, (openExistingOrNew l fs env (b.length : Int)).err = some e →
        (write l fs env b).n = 0 ∧ (write l fs env b).err = some e)) ∧
    (∀ e1 e2, Ev.rotateBySize e1 ∈ (write l fs env b).trace →
      Ev.rotateByInterval e2 ∉ (write l fs env b).trace) ∧
    (l.fileOpen = true → fs.stat l.currFilename ≠ .notExist →
      (∀ e, fs.stat l.currFilename ≠ .err e) →
      ((∃ e0, Ev.rotateBySize e0 ∈ (write l fs env b).trace) ↔
        (0 < l.opts.maxSize ∧ l.size + (b.length : Int) > l.opts.maxSize)) ∧
      ((∃ e0, Ev.rotateByInterval e0 ∈ (write l fs env b).trace) ↔
        (¬ (0 < l.opts.maxSize ∧ l.size + (b.length : Int) > l.opts.maxSize) ∧
          0 < l.opts.maxIntervalSeconds ∧
          l.currRotationTime
            ≠ evalCurrRotationTime env.now l.tzOffsetSeconds l.opts.maxIntervalSeconds))) ∧
    ((¬ (l.fileOpen = true) ∨ fs.stat l.currFilename = .notExist) →
      (openExistingOrNew l fs env (b.length : Int)).err = none →
      ((∃ e0, Ev.rotateBySize e0 ∈ (write l fs env b).trace) ↔
        (0 < (openExistingOrNew l fs env (b.length : Int)).l.opts.maxSize ∧
          (openExistingOrNew l fs env (b.length : Int)).l.size + (b.length : Int)
            > (openExistingOrNew l fs env (b.length : Int)).l.opts.maxSize))) := by
  by_cases hfr : (¬ (l.fileOpen = true) ∨ fs.stat l.currFilename = .notExist)
  · rcases he : (openExistingOrNew l fs env (b.length : Int)).err with _ | e
    · have heq : write l fs env b
          = writeTriggers (openExistingOrNew l fs env (b.length : Int)).l
              (openExistingOrNew l fs env (b.length : Int)).fs env b
              [.statCurr (fs.stat l.currFilename), .reopen none] := by
        simp only [write, if_pos hfr, he]
      obtain ⟨rest, htr, hsIff, hiIff, hstNo, hreNo⟩ := writeTriggers_trace
        (openExistingOrNew l fs env (b.length : Int)).l
        (openExistingOrNew l fs env (b.length : Int)).fs env b
        [.statCurr (fs.stat l.currFilename), .reopen none]
      rw [heq]
      refine ⟨by rw [htr]; rfl, ?_, ?_, ?_, ?_, ?_⟩
      · intro e' hop hst'
        rcases hfr with h1 | h2
        · exact absurd hop h1
        · rw [hst'] at h2
          exact StatResult.noConfusion h2
      · intro _
        refine ⟨by rw [htr]; rfl, ?_⟩
        intro e' he'
        cases he'
      · intro e1 e2 hmem1 hmem2
        rw [htr] at hmem1 hmem2
        rcases List.mem_append.mp hmem1 with h1 | h1
        · simp at h1
        · rcases List.mem_append.mp hmem2 with h2 | h2
          · simp at h2
          · exact (hiIff.mp ⟨e2, h2⟩).1 (hsIff.mp ⟨e1, h1⟩)
      · intro hop hne _
        rcases hfr with h1 | h2
        · exact absurd hop h1
        · exact absurd h2 hne
      · intro _ _
        constructor
        · rintro ⟨e0, hmem⟩
          rw [htr] at hmem
          rcases List.mem_append.mp hmem with h1 | h1
          · simp at h1
          · exact hsIff.mp ⟨e0, h1⟩
        · intro hcond
          obtain ⟨e0, h0⟩ := hsIff.mpr hcond
          exact ⟨e0, by rw [htr]; exact List.mem_append.mpr (Or.inr h0)⟩
    · have heq : write l fs env b =
          { n := 0, err := some e,
            l := (openExistingOrNew l fs env (b.length : Int)).l,
            fs := (openExistingOrNew l fs env (b.length : Int)).fs,
            trace := [.statCurr (fs.stat l.currFilename), .reopen (some e)] } := by
        simp only [write, if_pos hfr, he]
      rw [heq]
      refine ⟨rfl, ?_, ?_, ?_, ?_, ?_⟩
      · intro e' hop hst'
        rcases hfr with h1 | h2
        · exact absurd hop h1
        · rw [hst'] at h2
          exact StatResult.noConfusion h2
      · intro _
        refine ⟨rfl, ?_⟩
        intro e' he'
        cases he'
        exact ⟨rfl, rfl⟩
      · intro e1 e2 hmem1
        simp at hmem1
      · intro hop hne _
        rcases hfr with h1 | h2
        · exact absurd hop h1
        · exact absurd h2 hne
      · intro _ hnone
        cases hnone
  · have hop : l.fileOpen = true := by
      by_contra h
      exact hfr (Or.inl h)
    have hne : fs.stat l.currFilename ≠ .notExist := fun h => hfr (Or.inr h)
    rcases hst : fs.stat l.currFilename with sz | _ | e
    · have hfr2 : ¬ (¬ (l.fileOpen = true) ∨ (StatResult.ok sz : StatResult) = .notExist) := by
        intro hcon
        rcases hcon with h1 | h2
        · exact h1 hop
        · exact StatResult.noConfusion h2
      have heq : write l fs env b = writeTriggers l fs env b [.statCurr (.ok sz)] := by
        simp only [write, hst, if_neg hfr2]
      obtain ⟨rest, htr, hsIff, hiIff, hstNo, hreNo⟩ :=
        writeTriggers_trace l fs env b [.statCurr (.ok sz)]
      rw [heq]
      refine ⟨by rw [htr]; rfl, ?_, ?_, ?_, ?_, ?_⟩
      · intro e' _ hst'
        exact StatResult.noConfusion hst'
      · intro h
        exact absurd h hfr2
      · intro e1 e2 hmem1 hmem2
        rw [htr] at hmem1 hmem2
        rcases List.mem_append.mp hmem1 with h1 | h1
        · simp at h1
        · rcases List.mem_append.mp hmem2 with h2 | h2
          · simp at h2
          · exact (hiIff.mp ⟨e2, h2⟩).1 (hsIff.mp ⟨e1, h1⟩)
      · intro _ _ _
        constructor
        · constructor
          · rintro ⟨e0, hmem⟩
            rw [htr] at hmem
            rcases List.mem_append.mp hmem with h1 | h1
            · simp at h1
            · exact hsIff.mp ⟨e0, h1⟩
          · intro hcond
            obtain ⟨e0, h0⟩ := hsIff.mpr hcond
            exact ⟨e0, by rw [htr]; exact List.mem_append.mpr (Or.inr h0)⟩
        · constructor
          · rintro ⟨e0, hmem⟩
            rw [htr] at hmem
            rcases List.mem_append.mp hmem with h1 | h1
            · simp at h1
            · exact hiIff.mp ⟨e0, h1⟩
          · intro hcond
            obtain ⟨e0, h0⟩ := hiIff.mpr hcond
            exact ⟨e0, by rw [htr]; exact List.mem_append.mpr (Or.inr h0)⟩
      · intro h
        exact absurd h hfr2
    · exact (hne hst).elim
    · have hfr2 : ¬ (¬ (l.fileOpen = true) ∨ (StatResult.err e : StatResult) = .notExist) := by
        intro hcon
        rcases hcon with h1 | h2
        · exact h1 hop
        · exact StatResult.noConfusion h2
      have heq : write l fs env b =
          { n := 0, err := some e, l := l, fs := fs,
            trace := [.statCurr (.err e)] } := by
        simp only [write, hst, if_neg hfr2]
      rw [heq]
      refine ⟨rfl, ?_, ?_, ?_, ?_, ?_⟩
      · intro e' _ hst'
        cases hst'
        rfl
      · intro h
        exact absurd h hfr2
      · intro e1 e2 hmem1
        simp at hmem1
      · intro _ _ hnerr
        exact (hnerr e rfl).elim
      · intro h
        exact absurd h hfr2
  
/-- C6 witness: with a live handle and a stat error other than not-found,
the write fails with zero bytes, the stat error, and no state change. -/
theorem write_order_spec_witness :
    ({ mkLogger optsZero with fileOpen := true } : Logger).fileOpen = true ∧
    fsStatErr.stat ({ mkLogger optsZero with fileOpen := true } : Logger).currFilename
      = .err (.msg "boom") ∧
    (write { mkLogger optsZero with fileOpen := true } fsStatErr envZero [1]).err
      = some (.msg "boom") := by
  refine ⟨rfl, by decide, ?_⟩
  rw [(write_order_spec { mkLogger optsZero with fileOpen := true } fsStatErr envZero
    [1]).2.1 (.msg "boom") rfl (by decide)]

/-! ## C8 : write error recovery -/

/-- Filesystem for the C8 counterexample: the active file exists with five
bytes on disk. -/
def fsC8 : FS :=
  { entries := [("app.log", 5)], statErrs := [], openAppendFails := [], openNewFails := [] }

/-- Logger for the C8 counterexample: live handle, five bytes written,
size-based rotation at nine bytes. -/
def lC8 : Logger :=
  { mkLogger { optsZero with maxSize := 9 } with
    fileOpen := true, size := 5, currFilename := "app.log", currBaseFilename := "app.log" }

/-- Environment for the C8 counterexample: the handle write reports one
byte written and then fails. -/
def envC8 : Env := { now := 0, closeErr := none, writeRes := (1, some (.msg "disk full")) }

/-- C8 counterexample: a partial handle write of one byte is followed by a
successful recovery that rotates (the reopened file is over the size
budget), so the final size is zero rather than the previous size plus one;
the original error and the partial count are still returned. -/
theorem write_recovery_size_cx :
    (write lC8 fsC8 envC8 [1, 2, 3]).n = 1 ∧
    (write lC8 fsC8 envC8 [1, 2, 3]).err = some (.msg "disk full") ∧
    lC8.size = 5 ∧ envC8.writeRes.1 = 1 ∧
    (write lC8 fsC8 envC8 [1, 2, 3]).l.size = 0 ∧
    ¬ ((write lC8 fsC8 envC8 [1, 2, 3]).l.size = lC8.size + (envC8.writeRes.1 : Int)) := by
  decide

/-- C8 (amended): when the underlying handle write fails after n bytes, the
write step first adds n to size, then makes exactly one
open-existing-or-new recovery attempt on that incremented state (which may
in turn reset size); a failed recovery returns errors.Join of the original
and the recovery error, a successful one still returns the original error,
and the partial count n is returned either way. On a successful handle
write there is no recovery and size grows by exactly n. -/
theorem write_error_recovery_spec (l : Logger) (fs : FS) (env : Env) (b : List Nat)
    (tr : List Ev) (e : GoError) (hw : env.writeRes.2 = some e) :
    (doFileWrite l fs env b tr).n = env.writeRes.1 ∧
    ((openExistingOrNew { l with size := l.size + (env.writeRes.1 : Int) }
        (fs.append l.currFilename (env.writeRes.1 : Int)) env (b.length : Int)).err = none →
      (doFileWrite l fs env b tr).err = some e ∧
      (doFileWrite l fs env b tr).l
        = (openExistingOrNew { l with size := l.size + (env.writeRes.1 : Int) }
            (fs.append l.currFilename (env.writeRes.1 : Int)) env (b.length : Int)).l ∧
      (doFileWrite l fs env b tr).trace
        = tr ++ [.fileWrite env.writeRes.1 (some e), .recover none]) ∧
    (∀ e1, (openExistingOrNew { l with size := l.size + (env.writeRes.1 : Int) }
        (fs.append l.currFilename (env.writeRes.1 : Int)) env (b.length : Int)).err = some e1 →
      (doFileWrite l fs env b tr).err = some (.join e e1) ∧
      (doFileWrite l fs env b tr).trace
        = tr ++ [.fileWrite env.writeRes.1 (some e), .recover (some e1)]) ∧
    (∀ env2 : Env, env2.writeRes.2 = none →
      (doFileWrite l fs env2 b tr).l.size = l.size + (env2.writeRes.1 : Int) ∧
      (doFileWrite l fs env2 b tr).err = none ∧
      (doFileWrite l fs env2 b tr).trace = tr ++ [.fileWrite env2.writeRes.1 none]) := by
  refine ⟨?_, ?_, ?_, ?_⟩
  · simp only [doFileWrite, hw]
    rcases he : (openExistingOrNew { l with size := l.size + (env.writeRes.1 : Int) }
        (fs.append l.currFilename (env.writeRes.1 : Int)) env (b.length : Int)).err
      with _ | e1 <;> rfl
  · intro he
    simp only [doFileWrite, hw, he]
    refine ⟨?_, ?_, ?_⟩ <;> trivial
  · intro e1 he
    simp only [doFileWrite, hw, he]
    refine ⟨?_, ?_⟩ <;> trivial
  · intro env2 hw2
    simp only [doFileWrite, hw2]
    refine ⟨?_, ?_, ?_⟩ <;> trivial

/-- C8 witness: the amended theorem at the counterexample input, whose
recovery succeeds, returning the partial count and the original error. -/
theorem write_error_recovery_spec_witness :
    envC8.writeRes.2 = some (.msg "disk full") ∧
    (doFileWrite lC8 fsC8 envC8 [1, 2, 3] []).n = envC8.writeRes.1 := by
  refine ⟨rfl, ?_⟩
  exact (write_error_recovery_spec lC8 fsC8 envC8 [1, 2, 3] [] (.msg "disk full") rfl).1

/-! ## C10 : negative option values behave as zero -/

/-- Replace every non-positive numeric option by zero. The claim is that a
logger configured with negative thresholds behaves exactly like one with
them zeroed, because every guard tests strict positivity. -/
def zeroNonpos (o : Options) : Options :=
  { o with
    maxIntervalSeconds := max o.maxIntervalSeconds 0,
    maxSequence := max o.maxSequence 0,
    maxSize := max o.maxSize 0,
    maxAge := max o.maxAge 0,
    maxBackups := max o.maxBackups 0,
    writeChSize := max o.writeChSize 0 }

/-- The same logger with its options substituted. -/
def Logger.withOpts (l : Logger) (o : Options) : Logger := { l with opts := o }

/-- An operation result with the logger options substituted. -/
def OpResult.withOpts (r : OpResult) (o : Options) : OpResult :=
  { r with l := r.l.withOpts o }

/-- A write result with the logger options substituted. -/
def WriteResult.withOpts (r : WriteResult) (o : Options) : WriteResult :=
  { r with l := r.l.withOpts o }

theorem zeroNonpos_maxIntervalSeconds (o : Options) :
    (zeroNonpos o).maxIntervalSeconds = max o.maxIntervalSeconds 0 := rfl

theorem zeroNonpos_maxSequence (o : Options) :
    (zeroNonpos o).maxSequence = max o.maxSequence 0 := rfl

theorem zeroNonpos_maxSize (o : Options) :
    (zeroNonpos o).maxSize = max o.maxSize 0 := rfl

theorem zeroNonpos_maxAge (o : Options) :
    (zeroNonpos o).maxAge = max o.maxAge 0 := rfl

theorem zeroNonpos_maxBackups (o : Options) :
    (zeroNonpos o).maxBackups = max o.maxBackups 0 := rfl

theorem zeroNonpos_writeChSize (o : Options) :
    (zeroNonpos o).writeChSize = max o.writeChSize 0 := rfl

theorem zeroNonpos_symlink (o : Options) : (zeroNonpos o).symlink = o.symlink := rfl

theorem withOpts_opts (l : Logger) (o : Options) : (l.withOpts o).opts = o := rfl

theorem withOpts_fileOpen (l : Logger) (o : Options) :
    (l.withOpts o).fileOpen = l.fileOpen := rfl

theorem withOpts_size (l : Logger) (o : Options) : (l.withOpts o).size = l.size := rfl

theorem withOpts_currRotationTime (l : Logger) (o : Options) :
    (l.withOpts o).currRotationTime = l.currRotationTime := rfl

theorem withOpts_currFilename (l : Logger) (o : Options) :
    (l.withOpts o).currFilename = l.currFilename := rfl

theorem withOpts_currBaseFilename (l : Logger) (o : Options) :
    (l.withOpts o).currBaseFilename = l.currBaseFilename := rfl

theorem withOpts_currSequence (l : Logger) (o : Options) :
    (l.withOpts o).currSequence = l.currSequence := rfl

theorem withOpts_tzOffsetSeconds (l : Logger) (o : Options) :
    (l.withOpts o).tzOffsetSeconds = l.tzOffsetSeconds := rfl

theorem withOpts_fmtBase (l : Logger) (o : Options) :
    (l.withOpts o).fmtBase = l.fmtBase := rfl

theorem withOpts_writeCh (l : Logger) (o : Options) :
    (l.withOpts o).writeCh = l.writeCh := rfl

theorem withOpts_quitClosed (l : Logger) (o : Options) :
    (l.withOpts o).quitClosed = l.quitClosed := rfl

theorem withOpts_discards (l : Logger) (o : Options) :
    (l.withOpts o).discards = l.discards := rfl

theorem withOpts_millPending (l : Logger) (o : Options) :
    (l.withOpts o).millPending = l.millPending := rfl

theorem toNat_max_zero (x : Int) : (max x 0).toNat = x.toNat := by
  rcases le_or_lt x 0 with hx | hx
  · rw [max_eq_right hx]
    omega
  · rw [max_eq_left hx.le]

theorem incrCurrSequence_zero (o : Options) (seq : Nat) :
    incrCurrSequence (zeroNonpos o) seq = incrCurrSequence o seq := by
  unfold incrCurrSequence
  simp only [zeroNonpos_maxSequence, toNat_max_zero]
  rcases le_or_lt o.maxSequence 0 with hle | hlt
  · rw [max_eq_right hle]
    rw [if_neg (fun hc => absurd hc.1 (lt_irrefl 0)),
      if_neg (fun hc => absurd hc.1 (not_lt.mpr hle))]
  · rw [max_eq_left hlt.le]

theorem probeLoopFuel_zero (fs : FS) (o : Options) (base : String) :
    ∀ fuel seq over, probeLoopFuel fs (zeroNonpos o) base fuel seq over
      = probeLoopFuel fs o base fuel seq over := by
  intro fuel
  induction fuel with
  | zero => intro seq over; rfl
  | succ f ih =>
    intro seq over
    by_cases hov : over = true
    · subst hov
      rw [probeLoopFuel_over, probeLoopFuel_over]
    · have hov' : over = false := by
        cases over
        · rfl
        · exact absurd rfl hov
      subst hov'
      simp only [probeLoopFuel]
      rw [if_neg (by simp), if_neg (by simp)]
      rcases hst : fs.stat (genFilename base seq) with sz | _ | e <;>
        simp only [hst] <;>
        first
          | (rw [incrCurrSequence_zero]; exact ih _ _)
          | rfl

theorem rotationTimeInit_zero (o : Options) (l : Logger) (ho : l.opts = o) (now : Int) :
    rotationTimeInit (l.withOpts (zeroNonpos o)) now = rotationTimeInit l now := by
  subst ho
  unfold rotationTimeInit
  simp only [withOpts_opts, withOpts_tzOffsetSeconds, withOpts_currRotationTime,
    zeroNonpos_maxIntervalSeconds]
  rcases le_or_lt l.opts.maxIntervalSeconds 0 with hle | hlt
  · rw [max_eq_right hle]
    rw [if_neg (lt_irrefl 0), if_neg (not_lt.mpr hle)]
  · rw [max_eq_left hlt.le]

theorem evalBaseStage_zero (o : Options) (l : Logger) (ho : l.opts = o) (now : Int) :
    evalBaseStage (l.withOpts (zeroNonpos o)) now
      = ((evalBaseStage l now).1.withOpts (zeroNonpos o), (evalBaseStage l now).2) := by
  have hrt := rotationTimeInit_zero o l ho now
  subst ho
  unfold evalBaseStage
  simp only [withOpts_opts, withOpts_tzOffsetSeconds, withOpts_currRotationTime,
    withOpts_currBaseFilename, withOpts_fmtBase, zeroNonpos_maxIntervalSeconds, hrt]
  by_cases hb : l.currBaseFilename = ""
  · rw [if_pos hb, if_pos hb]
    try rfl
  · rw [if_neg hb, if_neg hb]
    rcases le_or_lt l.opts.maxIntervalSeconds 0 with hle | hlt
    · rw [max_eq_right hle]
      rw [if_neg (lt_irrefl 0), if_neg (not_lt.mpr hle)]
      try rfl
    · rw [max_eq_left hlt.le]
      by_cases hrot : l.currRotationTime
          ≠ evalCurrRotationTime now l.tzOffsetSeconds l.opts.maxIntervalSeconds
      · rw [if_pos hlt, if_pos hlt, if_pos hrot, if_pos hrot]
        try rfl
      · rw [if_pos hlt, if_pos hlt, if_neg hrot, if_neg hrot]
        try rfl

theorem evalSeqStage_zero (o : Options) (l : Logger) (ho : l.opts = o) (base : String)
    (writeLen : Int) (force : Bool) :
    evalSeqStage (l.withOpts (zeroNonpos o)) base writeLen force
      = ((evalSeqStage l base writeLen force).1.withOpts (zeroNonpos o),
         (evalSeqStage l base writeLen force).2) := by
  subst ho
  unfold evalSeqStage
  simp only [withOpts_opts, withOpts_size, withOpts_currSequence,
    withOpts_currBaseFilename, zeroNonpos_maxSize]
  by_cases hb : base ≠ l.currBaseFilename
  · rw [if_pos hb, if_pos hb]
    try rfl
  · rw [if_neg hb, if_neg hb]
    rcases le_or_lt l.opts.maxSize 0 with hle | hlt
    · rw [max_eq_right hle]
      by_cases hforce : force = true
      · rw [if_pos (Or.inl hforce), if_pos (Or.inl hforce), incrCurrSequence_zero]
        try rfl
      · rw [if_neg (fun hc => hc.elim hforce (fun hc2 => absurd hc2.1 (lt_irrefl 0))),
          if_neg (fun hc => hc.elim hforce (fun hc2 => absurd hc2.1 (not_lt.mpr hle)))]
        try rfl
    · rw [max_eq_left hlt.le]
      by_cases hcond : force = true ∨
          (0 < l.opts.maxSize ∧ l.size + writeLen > l.opts.maxSize)
      · rw [if_pos hcond, if_pos hcond, incrCurrSequence_zero]
        try rfl
      · rw [if_neg hcond, if_neg hcond]
        try rfl

theorem evalStagePair_zero (o : Options) (l : Logger) (ho : l.opts = o)
    (now writeLen : Int) (force : Bool) :
    evalStagePair (l.withOpts (zeroNonpos o)) now writeLen force
      = ((evalStagePair l now writeLen force).1.withOpts (zeroNonpos o),
         (evalStagePair l now writeLen force).2) := by
  unfold evalStagePair
  rw [evalBaseStage_zero o l ho now]
  exact evalSeqStage_zero o (evalBaseStage l now).1
    ((evalBaseStage_opts l now).trans ho) (evalBaseStage l now).2 writeLen force

theorem evalProbePair_zero (o : Options) (l : Logger) (ho : l.opts = o) (fs : FS)
    (now writeLen : Int) (force : Bool) :
    evalProbePair (l.withOpts (zeroNonpos o)) fs now writeLen force
      = evalProbePair l fs now writeLen force := by
  unfold evalProbePair
  rw [evalStagePair_zero o l ho]
  rw [show (evalStagePair l now writeLen force).1.opts = o from
    (evalStagePair_opts l now writeLen force).trans ho]
  exact probeLoopFuel_zero fs o _ _ _ _

theorem evalCurrentFilename_zero (o : Options) (l : Logger) (ho : l.opts = o) (fs : FS)
    (now writeLen : Int) (force : Bool) :
    evalCurrentFilename (l.withOpts (zeroNonpos o)) fs now writeLen force
      = ((evalCurrentFilename l fs now writeLen force).1.withOpts (zeroNonpos o),
         (evalCurrentFilename l fs now writeLen force).2.1,
         (evalCurrentFilename l fs now writeLen force).2.2) := by
  unfold evalCurrentFilename
  rw [evalStagePair_zero o l ho, evalProbePair_zero o l ho]
  cases force <;> rfl

theorem OpResult.withOpts_l (r : OpResult) (o : Options) :
    (r.withOpts o).l = r.l.withOpts o := rfl

theorem OpResult.withOpts_fs (r : OpResult) (o : Options) : (r.withOpts o).fs = r.fs := rfl

theorem OpResult.withOpts_err (r : OpResult) (o : Options) : (r.withOpts o).err = r.err := rfl

theorem close_withOpts (l : Logger) (o : Options) (env : Env) :
    (l.withOpts o).close env = ((l.close env).1.withOpts o, (l.close env).2) := by
  unfold Logger.close
  simp only [withOpts_fileOpen]
  by_cases hf : l.fileOpen = true
  · rw [if_pos hf, if_pos hf]
    rfl
  · rw [if_neg hf, if_neg hf]

theorem openNew_withOpts (l : Logger) (o : Options) (fs : FS) (fn : String) :
    openNew (l.withOpts o) fs fn = (openNew l fs fn).withOpts o := by
  unfold openNew OpResult.withOpts
  by_cases hn : fs.openNewFails.contains fn = true
  · rw [if_pos hn, if_pos hn]
    try rfl
  · rw [if_neg hn, if_neg hn]
    try rfl

theorem rotate_zero (o : Options) (l : Logger) (ho : l.opts = o) (fs : FS) (env : Env) :
    rotate (l.withOpts (zeroNonpos o)) fs env = (rotate l fs env).withOpts (zeroNonpos o) := by
  have hcl := close_withOpts l (zeroNonpos o) env
  have hev := evalCurrentFilename_zero o (l.close env).1 ((close_opts l env).trans ho)
    fs env.now 0 true
  simp only [rotate, hcl, hev, openNew_withOpts, OpResult.withOpts_err, OpResult.withOpts_l,
    OpResult.withOpts_fs]
  rcases hc2 : (l.close env).2 with _ | e
  · rcases hn : (openNew (evalCurrentFilename (l.close env).1 fs env.now 0 true).1 fs
        (evalCurrentFilename (l.close env).1 fs env.now 0 true).2.1).err with _ | e2
    all_goals rfl
  all_goals rfl

theorem openExistingOrNew_zero (o : Options) (l : Logger) (ho : l.opts = o) (fs : FS)
    (env : Env) (writeLen : Int) :
    openExistingOrNew (l.withOpts (zeroNonpos o)) fs env writeLen
      = (openExistingOrNew l fs env writeLen).withOpts (zeroNonpos o) := by
  have hoc : (l.close env).1.opts = o := (close_opts l env).trans ho
  have hcl := close_withOpts l (zeroNonpos o) env
  have hev := evalCurrentFilename_zero o (l.close env).1 hoc fs env.now writeLen false
  have hoe : (evalCurrentFilename (l.close env).1 fs env.now writeLen false).1.opts = o :=
    (evalCurrentFilename_opts _ fs env.now writeLen false).trans hoc
  have hrot := rotate_zero o
    (evalCurrentFilename (l.close env).1 fs env.now writeLen false).1 hoe fs env
  simp only [openExistingOrNew, hcl, hev, openNew_withOpts, hrot, OpResult.withOpts_err,
    OpResult.withOpts_l, OpResult.withOpts_fs, withOpts_opts, zeroNonpos_maxSize]
  rcases hc2 : (l.close env).2 with _ | e
  · by_cases hov : (evalCurrentFilename (l.close env).1 fs env.now writeLen false).2.2 = true
    · rw [if_pos hov, if_pos hov]
      try rfl
    · rw [if_neg hov, if_neg hov]
      rcases hst : fs.stat (evalCurrentFilename (l.close env).1 fs env.now writeLen false).2.1
        with sz | _ | e2 <;> try simp only [hst]
      · rw [hoe]
        rcases le_or_lt o.maxSize 0 with hle | hlt
        · rw [max_eq_right hle]
          rw [if_neg (show ¬ (0 < (0 : Int) ∧ sz + writeLen ≥ (0 : Int)) from
              fun hc => absurd hc.1 (lt_irrefl 0)),
            if_neg (show ¬ (0 < o.maxSize ∧ sz + writeLen ≥ o.maxSize) from
              fun hc => absurd hc.1 (not_lt.mpr hle))]
          by_cases hap : fs.openAppendFails.contains
              (evalCurrentFilename (l.close env).1 fs env.now writeLen false).2.1 = true
          · rw [if_pos hap, if_pos hap]
            try rfl
          · rw [if_neg hap, if_neg hap]
            try rfl
        · rw [max_eq_left hlt.le]
          by_cases hsz : 0 < o.maxSize ∧ sz + writeLen ≥ o.maxSize
          · rw [if_pos hsz, if_pos hsz]
            try rfl
          · rw [if_neg hsz, if_neg hsz]
            by_cases hap : fs.openAppendFails.contains
                (evalCurrentFilename (l.close env).1 fs env.now writeLen false).2.1 = true
            · rw [if_pos hap, if_pos hap]
              try rfl
            · rw [if_neg hap, if_neg hap]
              try rfl
      · try rfl
      · try rfl
  · try rfl

theorem openNew_opts (l : Logger) (fs : FS) (fn : String) :
    (openNew l fs fn).l.opts = l.opts := by
  unfold openNew
  split <;> rfl

theorem rotate_opts (l : Logger) (fs : FS) (env : Env) :
    (rotate l fs env).l.opts = l.opts := by
  simp only [rotate]
  split
  · exact close_opts l env
  · split
    · exact (openNew_opts _ fs _).trans
        ((evalCurrentFilename_opts _ fs env.now 0 true).trans (close_opts l env))
    · exact (openNew_opts _ fs _).trans
        ((evalCurrentFilename_opts _ fs env.now 0 true).trans (close_opts l env))

theorem openExistingOrNew_opts (l : Logger) (fs : FS) (env : Env) (writeLen : Int) :
    (openExistingOrNew l fs env writeLen).l.opts = l.opts := by
  have hcl := close_opts l env
  have hev : (evalCurrentFilename (l.close env).1 fs env.now writeLen false).1.opts = l.opts :=
    (evalCurrentFilename_opts _ fs env.now writeLen false).trans hcl
  simp only [openExistingOrNew]
  split
  · exact hcl
  · split
    · exact (openNew_opts _ fs _).trans hev
    · split
      · exact (openNew_opts _ fs _).trans hev
      · exact hev
      · split
        · exact (rotate_opts _ fs env).trans hev
        · split
          · exact (openNew_opts _ fs _).trans hev
          · exact hev

theorem withOpts_setSize (l : Logger) (o : Options) (v : Int) :
    ({ l with opts := zeroNonpos o, size := v } : Logger)
      = ({ l with size := v } : Logger).withOpts (zeroNonpos o) := rfl

set_option maxRecDepth 4000 in
theorem doFileWrite_zero (o : Options) (l : Logger) (ho : l.opts = o) (fs : FS)
    (env : Env) (b : List Nat) (tr : List Ev) :
    doFileWrite (l.withOpts (zeroNonpos o)) fs env b tr
      = (doFileWrite l fs env b tr).withOpts (zeroNonpos o) := by
  have hre := openExistingOrNew_zero o { l with size := l.size + (env.writeRes.1 : Int) } ho
    (fs.append l.currFilename (env.writeRes.1 : Int)) env (b.length : Int)
  simp only [doFileWrite, withOpts_opts, withOpts_fmtBase, withOpts_tzOffsetSeconds,
    withOpts_fileOpen, withOpts_size, withOpts_currRotationTime, withOpts_currFilename,
    withOpts_currBaseFilename, withOpts_currSequence, withOpts_quitClosed, withOpts_writeCh,
    withOpts_discards, withOpts_millPending, withOpts_setSize, hre,
    OpResult.withOpts_err, OpResult.withOpts_l, OpResult.withOpts_fs]
  rcases hw : env.writeRes.2 with _ | e
  · try rfl
  · rcases he : (openExistingOrNew { l with size := l.size + (env.writeRes.1 : Int) }
        (fs.append l.currFilename (env.writeRes.1 : Int)) env (b.length : Int)).err with _ | e1
    · try rfl
    · try rfl

theorem writeTriggers_zero (o : Options) (l : Logger) (ho : l.opts = o) (fs : FS)
    (env : Env) (b : List Nat) (tr : List Ev) :
    writeTriggers (l.withOpts (zeroNonpos o)) fs env b tr
      = (writeTriggers l fs env b tr).withOpts (zeroNonpos o) := by
  have hrot := rotate_zero o l ho fs env
  have hro : (rotate l fs env).l.opts = o := (rotate_opts l fs env).trans ho
  have hdo1 := doFileWrite_zero o (rotate l fs env).l hro (rotate l fs env).fs env b
    (tr ++ [.rotateBySize none])
  have hdo2 := doFileWrite_zero o (rotate l fs env).l hro (rotate l fs env).fs env b
    (tr ++ [.rotateByInterval none])
  have hdo3 := doFileWrite_zero o l ho fs env b tr
  simp only [writeTriggers, withOpts_opts, withOpts_size, withOpts_currRotationTime,
    withOpts_tzOffsetSeconds, zeroNonpos_maxSize, zeroNonpos_maxIntervalSeconds, ho, hrot,
    OpResult.withOpts_err, OpResult.withOpts_l, OpResult.withOpts_fs, hdo1, hdo2, hdo3]
  rcases le_or_lt o.maxSize 0 with hsle | hsgt
  · rw [max_eq_right hsle]
    rw [if_neg (show ¬ ((0 : Int) < 0 ∧ l.size + (b.length : Int) > 0) from
        fun hc => absurd hc.1 (lt_irrefl 0)),
      if_neg (show ¬ (0 < o.maxSize ∧ l.size + (b.length : Int) > o.maxSize) from
        fun hc => absurd hc.1 (not_lt.mpr hsle))]
    rcases le_or_lt o.maxIntervalSeconds 0 with hile | higt
    · rw [max_eq_right hile]
      rw [if_neg (show ¬ ((0 : Int) < 0 ∧ l.currRotationTime
            ≠ evalCurrRotationTime env.now l.tzOffsetSeconds 0) from
          fun hc => absurd hc.1 (lt_irrefl 0)),
        if_neg (show ¬ (0 < o.maxIntervalSeconds ∧ l.currRotationTime
            ≠ evalCurrRotationTime env.now l.tzOffsetSeconds o.maxIntervalSeconds) from
          fun hc => absurd hc.1 (not_lt.mpr hile))]
      try rfl
    · rw [max_eq_left higt.le]
      by_cases hint : 0 < o.maxIntervalSeconds ∧ l.currRotationTime
          ≠ evalCurrRotationTime env.now l.tzOffsetSeconds o.maxIntervalSeconds
      · rw [if_pos hint, if_pos hint]
        rcases he : (rotate l fs env).err with _ | e
        · try rfl
        · try rfl
      · rw [if_neg hint, if_neg hint]
        try rfl
  · rw [max_eq_left hsgt.le]
    by_cases hsz : 0 < o.maxSize ∧ l.size + (b.length : Int) > o.maxSize
    · rw [if_pos hsz, if_pos hsz]
      rcases he : (rotate l fs env).err with _ | e
      · try rfl
      · try rfl
    · rw [if_neg hsz, if_neg hsz]
      rcases le_or_lt o.maxIntervalSeconds 0 with hile | higt
      · rw [max_eq_right hile]
        rw [if_neg (show ¬ ((0 : Int) < 0 ∧ l.currRotationTime
              ≠ evalCurrRotationTime env.now l.tzOffsetSeconds 0) from
            fun hc => absurd hc.1 (lt_irrefl 0)),
          if_neg (show ¬ (0 < o.maxIntervalSeconds ∧ l.currRotationTime
              ≠ evalCurrRotationTime env.now l.tzOffsetSeconds o.maxIntervalSeconds) from
            fun hc => absurd hc.1 (not_lt.mpr hile))]
        try rfl
      · rw [max_eq_left higt.le]
        by_cases hint : 0 < o.maxIntervalSeconds ∧ l.currRotationTime
            ≠ evalCurrRotationTime env.now l.tzOffsetSeconds o.maxIntervalSeconds
        · rw [if_pos hint, if_pos hint]
          rcases he : (rotate l fs env).err with _ | e
          · try rfl
          · try rfl
        · rw [if_neg hint, if_neg hint]
          try rfl

theorem wr_withOpts_n (r : WriteResult) (o : Options) : (r.withOpts o).n = r.n := rfl

theorem wr_withOpts_err (r : WriteResult) (o : Options) :
    (r.withOpts o).err = r.err := rfl

theorem wr_withOpts_l (r : WriteResult) (o : Options) :
    (r.withOpts o).l = r.l.withOpts o := rfl

theorem wr_withOpts_fs (r : WriteResult) (o : Options) :
    (r.withOpts o).fs = r.fs := rfl

theorem wr_withOpts_trace (r : WriteResult) (o : Options) :
    (r.withOpts o).trace = r.trace := rfl

theorem write_zero (o : Options) (l : Logger) (ho : l.opts = o) (fs : FS) (env : Env)
    (b : List Nat) :
    write (l.withOpts (zeroNonpos o)) fs env b = (write l fs env b).withOpts (zeroNonpos o) := by
  have hre := openExistingOrNew_zero o l ho fs env (b.length : Int)
  have hreo : (openExistingOrNew l fs env (b.length : Int)).l.opts = o :=
    (openExistingOrNew_opts l fs env (b.length : Int)).trans ho
  have htr1 := writeTriggers_zero o (openExistingOrNew l fs env (b.length : Int)).l hreo
    (openExistingOrNew l fs env (b.length : Int)).fs env b
    [.statCurr (fs.stat l.currFilename), .reopen none]
  have htr2 := writeTriggers_zero o l ho fs env b [.statCurr (fs.stat l.currFilename)]
  simp only [write, withOpts_fileOpen, withOpts_currFilename, hre, OpResult.withOpts_err,
    OpResult.withOpts_l, OpResult.withOpts_fs, htr1, htr2]
  by_cases hfr : ¬ (l.fileOpen = true) ∨ fs.stat l.currFilename = StatResult.notExist
  · rw [if_pos hfr, if_pos hfr]
    rcases he : (openExistingOrNew l fs env (b.length : Int)).err with _ | e
    · try rfl
    · try rfl
  · rw [if_neg hfr, if_neg hfr]
    rcases hst : fs.stat l.currFilename with sz | _ | e <;> try rfl

theorem Write_zero (o : Options) (l : Logger) (ho : l.opts = o) (fs : FS) (env : Env)
    (b : List Nat) :
    Write (l.withOpts (zeroNonpos o)) fs env b = (Write l fs env b).withOpts (zeroNonpos o) := by
  have hw := write_zero o l ho fs env b
  simp only [Write, withOpts_opts, withOpts_writeCh, zeroNonpos_writeChSize, ho, hw]
  rcases le_or_lt o.writeChSize 0 with hle | hlt
  · rw [max_eq_right hle, if_pos (le_refl (0 : Int)), if_pos hle]
  · rw [max_eq_left hlt.le, if_neg (not_le.mpr hlt), if_neg (not_le.mpr hlt)]
    by_cases hroom : (l.writeCh.length : Int) < o.writeChSize
    · rw [if_pos hroom, if_pos hroom]
      rfl
    · rw [if_neg hroom, if_neg hroom]
      rfl

theorem millRunOnce_zero (o : Options) (now : Int) (files : List MillFile) :
    millRunOnce (zeroNonpos o) now files = millRunOnce o now files := by
  unfold millRunOnce
  rcases files with _ | ⟨f0, rest⟩
  · rfl
  · simp only [zeroNonpos_symlink, zeroNonpos_maxBackups, zeroNonpos_maxAge]
    rcases le_or_lt o.maxBackups 0 with hbl | hbg <;> rcases le_or_lt o.maxAge 0 with hal | hag
    · simp only [max_eq_right hbl, max_eq_right hal]
      rw [if_pos (⟨le_refl (0 : Int), le_refl (0 : Int)⟩ :
          (0 : Int) ≤ 0 ∧ (0 : Int) ≤ 0),
        if_pos (⟨hbl, hal⟩ : o.maxBackups ≤ 0 ∧ o.maxAge ≤ 0)]
    · simp only [max_eq_right hbl, max_eq_left hag.le]
      rw [if_neg (show ¬ ((0 : Int) ≤ 0 ∧ o.maxAge ≤ 0) from
          fun hc => absurd hc.2 (not_le.mpr hag)),
        if_neg (show ¬ (o.maxBackups ≤ 0 ∧ o.maxAge ≤ 0) from
          fun hc => absurd hc.2 (not_le.mpr hag)),
        if_pos hag]
      simp only [if_pos hag]
      rw [if_neg (show ¬ ((0 : Int) < 0 ∧ (0 : Int) <
            (((f0 :: rest).filter (fun f => ¬ f.modTime < now - o.maxAge)).length : Int)) from
          fun hc => absurd hc.1 (lt_irrefl 0)),
        if_neg (show ¬ (0 < o.maxBackups ∧ o.maxBackups <
            (((f0 :: rest).filter (fun f => ¬ f.modTime < now - o.maxAge)).length : Int)) from
          fun hc => absurd hc.1 (not_lt.mpr hbl))]
    · simp only [max_eq_left hbg.le, max_eq_right hal]
      rw [if_neg (show ¬ (o.maxBackups ≤ 0 ∧ (0 : Int) ≤ 0) from
          fun hc => absurd hc.1 (not_le.mpr hbg)),
        if_neg (show ¬ (o.maxBackups ≤ 0 ∧ o.maxAge ≤ 0) from
          fun hc => absurd hc.1 (not_le.mpr hbg)),
        if_neg (show ¬ ((0 : Int) < 0) from lt_irrefl 0),
        if_neg (show ¬ ((0 : Int) < 0) from lt_irrefl 0),
        if_neg (not_lt.mpr hal), if_neg (not_lt.mpr hal)]
    · simp only [max_eq_left hbg.le, max_eq_left hag.le]

/-- C10: construction never rejects negative option values: New fails exactly
when the strftime pattern is invalid, independently of the options; and every
negative threshold behaves identically to zero, because every guard tests
strict positivity: replacing all non-positive numeric option values by zero
(zeroNonpos) changes neither Write (the full synchronous write path with its
size, interval, sequence-clamp and reopen logic, and the buffered enqueue
path), nor Rotate, nor the millRunOnce removal and symlink selection. -/
theorem negative_options_spec :
    (∀ (patternOk : Bool) (opts : Options) (fb : Int → String) (tz : Int),
      (New patternOk opts fb tz).isSome = patternOk) ∧
    (∀ (l : Logger) (fs : FS) (env : Env) (b : List Nat),
      Write (l.withOpts (zeroNonpos l.opts)) fs env b
        = (Write l fs env b).withOpts (zeroNonpos l.opts)) ∧
    (∀ (l : Logger) (fs : FS) (env : Env),
      Rotate (l.withOpts (zeroNonpos l.opts)) fs env
        = (Rotate l fs env).withOpts (zeroNonpos l.opts)) ∧
    (∀ (opts : Options) (now : Int) (files : List MillFile),
      millRunOnce (zeroNonpos opts) now files = millRunOnce opts now files) := by
  refine ⟨?_, ?_, ?_, ?_⟩
  · intro patternOk opts fb tz
    cases patternOk <;> rfl
  · intro l fs env b
    exact Write_zero l.opts l rfl fs env b
  · intro l fs env
    exact rotate_zero l.opts l rfl fs env
  · intro opts now files
    exact millRunOnce_zero opts now files
